import Mathlib

/-!
Verification of the blue/green log comparison and heuristic error-scoring
engines of the `rag-qa` repository (src/src/logComparator.js and
src/src/rag/ragAnalyzer.js), as a shallow embedding in Lean 4.

JavaScript values flowing through the two engines are modelled by `JValue`;
machine numbers are modelled by `Int` (the records under comparison carry
only structured data, and no arithmetic is performed on them), and the
scoring pipeline's fractional multipliers by `Rat` with `round` standing in
for `Math.round`.  Fallible operations (JavaScript expressions that can
throw a `TypeError`, such as calling `.toLowerCase()` on a non-string) are
modelled with `Except String`.
-/

/-- A JavaScript value as it appears in a parsed log record: `null`, a
scalar (string / number / boolean), an array, or a plain object whose
entries are kept in insertion order.  An *absent* property (JavaScript
`undefined`) is modelled by `Option.none` at the use site. -/
inductive JValue where
  | null : JValue
  | str : String → JValue
  | num : Int → JValue
  | bool : Bool → JValue
  | arr : List JValue → JValue
  | obj : List (String × JValue) → JValue

/-- JavaScript truthiness of a `JValue`: `null`, `""`, `0` and `false` are
falsy; every array and object is truthy. -/
def jsTruthy : JValue → Bool
  | .null => false
  | .str s => s ≠ ""
  | .num n => n ≠ 0
  | .bool b => b
  | .arr _ => true
  | .obj _ => true

/-- Truthiness of a possibly-absent value (`undefined` is falsy). -/
def jsTruthyOpt : Option JValue → Bool
  | none => false
  | some v => jsTruthy v

/-- Property access `v[k]` on a JavaScript value: an object yields the
first entry with the given key, every other value yields `undefined`
(non-object property access on a non-null value does not throw). -/
def getProp (v : JValue) (k : String) : Option JValue :=
  match v with
  | .obj kvs => kvs.lookup k
  | _ => none

/-- Optional chaining `v?.k`: `undefined` when the base is absent or
`null`, ordinary property access otherwise. -/
def optChain (v : Option JValue) (k : String) : Option JValue :=
  match v with
  | none => none
  | some .null => none
  | some w => getProp w k

/-- JavaScript `a || b` on possibly-absent values: `a` when truthy,
otherwise `b`. -/
def jsOr (a b : Option JValue) : Option JValue :=
  match a with
  | some v => if jsTruthy v then some v else b
  | none => b

/-- JavaScript string coercion check: `.toLowerCase()` (and friends) on a
non-string raises a `TypeError`; on a string it succeeds. -/
def asString (v : JValue) : Except String String :=
  match v with
  | .str s => .ok s
  | _ => .error "TypeError: not a string"

/-- Is `c` an ASCII word character, JavaScript `\w` = `[A-Za-z0-9_]`. -/
def jsWordChar (c : Char) : Bool :=
  (('a' ≤ c && c ≤ 'z') || ('A' ≤ c && c ≤ 'Z') || ('0' ≤ c && c ≤ '9') || c = '_')

/-- Is `c` whitespace, JavaScript `\s` (ASCII part). -/
def jsSpaceChar (c : Char) : Bool :=
  (c = ' ' || c = '\t' || c = '\n' || c = '\r' || c = '\x0b' || c = '\x0c')

/-- Does the first character list lead the second (pattern, then text)? -/
def leadsWith : List Char → List Char → Bool
  | [], _ => true
  | _ :: _, [] => false
  | c :: cs, d :: ds => c = d && leadsWith cs ds

/-- JavaScript `String.includes`: does `needle` occur as a contiguous
substring of `haystack`? -/
def includesChars (needle : List Char) : List Char → Bool
  | [] => leadsWith needle []
  | c :: rest => leadsWith needle (c :: rest) || includesChars needle rest

/-- `haystack.includes(needle)` on strings. -/
def strIncludes (haystack needle : String) : Bool := includesChars needle.data haystack.data

/-- ASCII-faithful `String.prototype.toLowerCase` (character-wise, so it
evaluates inside the kernel). -/
def jsToLower (s : String) : String := String.mk (s.data.map Char.toLower)

/-- ASCII-faithful `String.prototype.toUpperCase`. -/
def jsToUpper (s : String) : String := String.mk (s.data.map Char.toUpper)

/-- `String.prototype.trim`: strip leading and trailing whitespace. -/
def jsTrim (s : String) : String :=
  String.mk (((s.data.dropWhile jsSpaceChar).reverse.dropWhile jsSpaceChar).reverse)

/-- Split a character list at every occurrence of the separator. -/
def splitCharsOn (sep : Char) : List Char → List (List Char)
  | [] => [[]]
  | c :: rest =>
      let groups := splitCharsOn sep rest
      if c = sep then [] :: groups
      else
        match groups with
        | [] => [[c]]
        | g :: gs => (c :: g) :: gs

/-- `fieldPath.split('.')`. -/
def splitOnDot (s : String) : List String := (splitCharsOn '.' s.data).map String.mk

/-- `String.prototype.startsWith`. -/
def strStartsWith (s pre : String) : Bool := leadsWith pre.data s.data

/-!
Deep value equality, as used by the structural comparator: mappings are
equal when they hold the same keys with (deeply) equal values, irrespective
of key insertion order; arrays are compared element-wise; `undefined`
(absence) is distinct from `null` (spec section 4.2).
-/

mutual

/-- Deep equality of two JavaScript values (key-order independent). -/
def deq : JValue → JValue → Bool
  | .null, .null => true
  | .str a, .str b => a = b
  | .num a, .num b => a = b
  | .bool a, .bool b => a = b
  | .arr xs, .arr ys => deqList xs ys
  | .obj xs, .obj ys => deqEntriesIn xs ys && ys.all (fun kv => (xs.lookup kv.1).isSome)
  | _, _ => false

/-- Element-wise deep equality of two arrays. -/
def deqList : List JValue → List JValue → Bool
  | [], [] => true
  | x :: xs, y :: ys => deq x y && deqList xs ys
  | _, _ => false

/-- Every entry of the first mapping is present in the second with a deeply
equal value. -/
def deqEntriesIn : List (String × JValue) → List (String × JValue) → Bool
  | [], _ => true
  | (k, v) :: rest, ys =>
      (match ys.lookup k with
       | none => false
       | some w => deq v w) && deqEntriesIn rest ys
end

/-- Deep equality of possibly-absent values: absent equals only absent. -/
def deqOpt : Option JValue → Option JValue → Bool
  | none, none => true
  | some a, some b => deq a b
  | _, _ => false

/-!
A small executable regular-expression engine, sufficient for the pattern
catalog of ragAnalyzer.js.  Each JavaScript regex literal of the source is
transcribed into an `RE` syntax tree; `reTest` implements `RegExp.test`
(existence of a match starting at any position).  Greedy vs. lazy
quantifiers are irrelevant for a pure existence test, so both map to
`RE.star`.
-/

/-- First-order character classes occurring in the source's regexes. -/
inductive CharCls where
  | word
  | space
  | digit
  | dotAny
  | alphaAscii
  | wordOrSpace
  | oneOf (cs : List Char)
deriving DecidableEq

/-- Interpretation of a character class. -/
def CharCls.eval : CharCls → Char → Bool
  | .word, c => jsWordChar c
  | .space, c => jsSpaceChar c
  | .digit, c => ('0' ≤ c && c ≤ '9')
  | .dotAny, c => !(c = '\n' || c = '\r')
  | .alphaAscii, c => (('a' ≤ c && c ≤ 'z') || ('A' ≤ c && c ≤ 'Z'))
  | .wordOrSpace, c => (jsWordChar c || c = ' ')
  | .oneOf cs, c => cs.contains c

/-- Regular-expression syntax trees: epsilon, a literal character, a
character class, concatenation, alternation, Kleene star, the `\b` word
boundary and the `$` end anchor. -/
inductive RE where
  | eps
  | chr (c : Char)
  | cls (k : CharCls)
  | seq (a b : RE)
  | alt (a b : RE)
  | star (a : RE)
  | bound
  | eos
deriving DecidableEq

/-- Character comparison, case-insensitively when `ci` is set (the `i`
flag carried by every regex of the scoring catalog). -/
def cMatch (ci : Bool) (c d : Char) : Bool :=
  if ci then c.toLower = d.toLower else c = d

/-- Is a possibly-missing character a word character (`\b` semantics:
positions outside the string count as non-word). -/
def isWordOpt : Option Char → Bool
  | none => false
  | some c => jsWordChar c

/-- The number of syntax nodes of a regex (to compute a fuel bound). -/
def RE.size : RE → Nat
  | .eps => 1
  | .chr _ => 1
  | .cls _ => 1
  | .seq a b => a.size + b.size + 1
  | .alt a b => a.size + b.size + 1
  | .star a => a.size + 1
  | .bound => 1
  | .eos => 1

/-- Backtracking matcher in continuation-passing style.  `s` is the rest
of the input, `prev` the character just before it (for `\b`), and `k` the
continuation.  `fuel` decreases on every recursive step so the definition
is structural (and so evaluates inside the kernel); each star iteration
must consume input, which never changes the result of a pure existence
test, and `reTest` passes ample fuel for a complete search. -/
def reMatch (ci : Bool) : Nat → RE → List Char → Option Char → (List Char → Option Char → Bool) → Bool
  | 0, _, _, _, _ => false
  | fuel + 1, re, s, prev, k =>
    match re with
    | .eps => k s prev
    | .chr c =>
        match s with
        | [] => false
        | d :: rest => cMatch ci c d && k rest (some d)
    | .cls kc =>
        match s with
        | [] => false
        | d :: rest => kc.eval d && k rest (some d)
    | .bound => (isWordOpt prev != isWordOpt s.head?) && k s prev
    | .eos => s.isEmpty && k s prev
    | .seq a b => reMatch ci fuel a s prev (fun s' p' => reMatch ci fuel b s' p' k)
    | .alt a b => reMatch ci fuel a s prev k || reMatch ci fuel b s prev k
    | .star a =>
        k s prev ||
        reMatch ci fuel a s prev
          (fun s' p' => decide (s'.length < s.length) && reMatch ci fuel (.star a) s' p' k)

/-- Try to match `re` starting at each successive position. -/
def reSearch (ci : Bool) (fuel : Nat) (re : RE) : List Char → Option Char → Bool
  | [], prev => reMatch ci fuel re [] prev (fun _ _ => true)
  | c :: rest, prev =>
      reMatch ci fuel re (c :: rest) prev (fun _ _ => true) ||
      reSearch ci fuel re rest (some c)

/-- `RegExp.test`: does `re` match somewhere in `s`? -/
def reTest (ci : Bool) (re : RE) (s : String) : Bool :=
  reSearch ci ((re.size + 1) * (s.data.length + 2)) re s.data none

/-- Concatenation of a list of regexes. -/
def rcat (rs : List RE) : RE := rs.foldr .seq .eps

/-- Alternation of a list of regexes (`[]` matches nothing). -/
def ralt : List RE → RE
  | [] => .cls (.oneOf [])
  | [r] => r
  | r :: rs => .alt r (ralt rs)

/-- A literal string. -/
def lit (s : String) : RE := rcat (s.data.map .chr)

/-- One-or-more repetition (`+`). -/
def rplus (r : RE) : RE := .seq r (.star r)

/-- Zero-or-one repetition (`?`). -/
def ropt (r : RE) : RE := .alt r .eps

/-- Word-alternation helper: `\b(w1|w2|...)`. -/
def wordAlt (ws : List String) : RE := ralt (ws.map lit)

/-!
Embedding of src/src/logComparator.js.

The exclusion configuration of `compareWorkflowLogs` is the concatenation
of a default configuration read from a JSON file and the caller's options;
file loading is external to the core (spec sections 1 and 6), so the two
merged lists are taken here as plain parameters.
-/

/-- A user-supplied ignore pattern after `new RegExp(pattern)`: either a
successfully compiled regex, or a pattern string whose compilation threw
(the `catch` branch of `shouldIgnoreField` skips it). -/
inductive IgnorePattern where
  | valid (re : RE)
  | invalid
deriving DecidableEq

/-- Did the pattern string compile? -/
def IgnorePattern.isValid : IgnorePattern → Bool
  | .valid _ => true
  | .invalid => false

/-- logComparator.js `shouldIgnoreField`: a dot-notation field path is
ignored when it appears verbatim in `ignoreFields`, when any single
segment of it does, or when a (valid) regex pattern matches the full path
or any segment.  Patterns are compiled without flags, hence matched
case-sensitively. -/
def shouldIgnoreField (fieldPath : String) (ignoreFields : List String)
    (ignorePatterns : List IgnorePattern) : Bool :=
  if ignoreFields.contains fieldPath then
    true
  else
    let pathParts := splitOnDot fieldPath
    if pathParts.any (fun part => ignoreFields.contains part) then
      true
    else
      ignorePatterns.any (fun pat =>
        match pat with
        | .invalid => false
        | .valid re => reTest false re fieldPath || pathParts.any (fun part => reTest false re part))

/-- The full dot path of key `key` under `parentPath`: JavaScript
`` parentPath ? `${parentPath}.${key}` : key ``. -/
def joinPath (parentPath key : String) : String :=
  if parentPath = "" then key else parentPath ++ "." ++ key

mutual

/-- logComparator.js `removeIgnoredFields`: deep clone with the ignored
field paths (and their subtrees) dropped.  Scalars and `null` pass
through; arrays are filtered element-wise with the bracketed index
appended to the parent path. -/
def removeIgnoredFields (ignoreFields : List String) (ignorePatterns : List IgnorePattern) :
    JValue → String → JValue
  | .obj kvs, parentPath => .obj (filterObjEntries ignoreFields ignorePatterns kvs parentPath)
  | .arr xs, parentPath => .arr (filterArrItems ignoreFields ignorePatterns xs parentPath 0)
  | v, _ => v

/-- Entry-wise filtering of an object's entries (the `Object.entries`
loop of `removeIgnoredFields`).  A non-ignored entry is copied with
`result[key] = ...`; for the key `__proto__` that assignment finds the
inherited `Object.prototype.__proto__` accessor and creates no own
property, so an own `__proto__` entry is silently dropped regardless of
the exclusion rules. -/
def filterObjEntries (ignoreFields : List String) (ignorePatterns : List IgnorePattern) :
    List (String × JValue) → String → List (String × JValue)
  | [], _ => []
  | (key, value) :: rest, parentPath =>
      let fullPath := joinPath parentPath key
      if shouldIgnoreField fullPath ignoreFields ignorePatterns then
        filterObjEntries ignoreFields ignorePatterns rest parentPath
      else if key = "__proto__" then
        filterObjEntries ignoreFields ignorePatterns rest parentPath
      else
        (key, removeIgnoredFields ignoreFields ignorePatterns value fullPath) ::
          filterObjEntries ignoreFields ignorePatterns rest parentPath

/-- Element-wise filtering of an array (the `obj.map` branch of
`removeIgnoredFields`), with paths `parent[index]`. -/
def filterArrItems (ignoreFields : List String) (ignorePatterns : List IgnorePattern) :
    List JValue → String → Nat → List JValue
  | [], _, _ => []
  | x :: xs, parentPath, index =>
      removeIgnoredFields ignoreFields ignorePatterns x
          (parentPath ++ "[" ++ toString index ++ "]") ::
        filterArrItems ignoreFields ignorePatterns xs parentPath (index + 1)
end

/-- Kind of a structural difference, after the `deep-diff` codes used in
`compareLogEntries` (N: new/added, D: deleted, E: edited, A: array
change). -/
inductive DiffKind where
  | N
  | D
  | E
  | A
deriving DecidableEq

/-- A raw structural difference with its path as a list of object keys
(array changes carry the array's path plus an index, and are not recursed
into). -/
structure DiffEntry where
  kind : DiffKind
  path : List String
  blueValue : Option JValue
  greenValue : Option JValue
  index : Option Nat

/-- Prepend an object key to a difference's path. -/
def DiffEntry.underKey (k : String) (d : DiffEntry) : DiffEntry :=
  { d with path := k :: d.path }

/-- Modelled from the spec: index-wise array comparison producing one
`ArrayChanged` entry (kind `A`, carrying the index and the changed item)
per position at which the two arrays differ by deep equality, with
absent-vs-present distinct from `null` (spec section 4.2). -/
def arrayDiffs (xs ys : List JValue) : List DiffEntry :=
  (List.range (max xs.length ys.length)).filterMap (fun i =>
    if deqOpt xs[i]? ys[i]? then none
    else some { kind := .A, path := [], blueValue := xs[i]?, greenValue := ys[i]?, index := some i })

mutual

/-- Modelled from the spec: the deep structural diff applied by
`compareLogEntries` (the repository delegates it to the external
`deep-diff` library, spec section 4.2): key/path present only in green is
`Added`, only in blue is `Deleted`, a differing value at an identical
path is `Edited`, and a differing array element is `ArrayChanged`;
mappings are compared key-wise independent of insertion order, and a
deeply equal pair produces no entry. -/
def diffValue : JValue → JValue → List DiffEntry
  | .obj bs, .obj gs =>
      diffObjEntries bs gs ++
        gs.filterMap (fun kv =>
          if (bs.lookup kv.1).isSome then none
          else some { kind := .N, path := [kv.1], blueValue := none, greenValue := some kv.2,
                      index := none })
  | .arr xs, .arr ys => arrayDiffs xs ys
  | b, g =>
      if deq b g then []
      else [{ kind := .E, path := [], blueValue := some b, greenValue := some g, index := none }]

/-- Walk the blue mapping's entries: a key absent from green yields a
`Deleted` entry, a key present in both recurses. -/
def diffObjEntries : List (String × JValue) → List (String × JValue) → List DiffEntry
  | [], _ => []
  | (k, bv) :: rest, gs =>
      (match gs.lookup k with
       | none => [{ kind := .D, path := [k], blueValue := some bv, greenValue := none,
                    index := none }]
       | some gv => (diffValue bv gv).map (DiffEntry.underKey k)) ++
        diffObjEntries rest gs
end

/-- Render a difference path below a parent path as a dot-notation string
(`pathToString` of the source, for key paths). -/
def renderPath (parentPath : String) : List String → String
  | [] => parentPath
  | k :: rest => renderPath (joinPath parentPath k) rest

/-- One reported difference of `compareLogEntries`, with the path
flattened to dot notation. -/
structure LogDiff where
  kind : DiffKind
  path : String
  blueValue : Option JValue
  greenValue : Option JValue
  index : Option Nat

/-- Result shape of `compareLogEntries`. -/
structure ComparisonResult where
  hasDifferences : Bool
  differences : List LogDiff

/-- logComparator.js `compareLogEntries`: filter both records
independently, diff the filtered values, and flatten the diff paths. -/
def compareLogEntries (blueLog greenLog : JValue) (ignoreFields : List String)
    (ignorePatterns : List IgnorePattern) : ComparisonResult :=
  let filteredBlue := removeIgnoredFields ignoreFields ignorePatterns blueLog ""
  let filteredGreen := removeIgnoredFields ignoreFields ignorePatterns greenLog ""
  let differences := diffValue filteredBlue filteredGreen
  { hasDifferences := differences.length > 0,
    differences := differences.map (fun d =>
      { kind := d.kind, path := renderPath "" d.path, blueValue := d.blueValue,
        greenValue := d.greenValue, index := d.index }) }

/-- The summary counters of a comparison report. -/
structure ReportSummary where
  blueLogCount : Nat
  greenLogCount : Nat
  matchedCount : Nat
  mismatchedCount : Nat
  blueOnlyCount : Nat
  greenOnlyCount : Nat
deriving DecidableEq

/-- A mismatched pair as pushed onto `logDifferences`: index, the two
*filtered* records, and the diff list. -/
structure LogDifference where
  index : Nat
  blueLog : JValue
  greenLog : JValue
  differences : List LogDiff

/-- The comparison report produced by `compareWorkflowLogs`. -/
structure WorkflowReport where
  summary : ReportSummary
  countMismatch : Bool
  logDifferences : List LogDifference
  blueOnlyLogs : List (Nat × Option JValue)
  greenOnlyLogs : List (Nat × Option JValue)
  ignoredFields : List String
  ignoredPatterns : List IgnorePattern

/-- One iteration of the index loop of `compareWorkflowLogs`: a falsy blue
entry is recorded green-only, otherwise a falsy green entry blue-only,
otherwise the pair is compared (`cmp` is `compareLogEntries` applied to
the configuration; it is a parameter so that the one-sided branches can be
shown not to depend on it). -/
def cwlStep (cmp : JValue → JValue → ComparisonResult)
    (ignoreFields : List String) (ignorePatterns : List IgnorePattern)
    (blueLogs greenLogs : List JValue) (report : WorkflowReport) (i : Nat) : WorkflowReport :=
  let blueLog := blueLogs[i]?
  let greenLog := greenLogs[i]?
  if !jsTruthyOpt blueLog then
    { report with
      greenOnlyLogs := report.greenOnlyLogs ++ [(i, greenLog)],
      summary := { report.summary with greenOnlyCount := report.summary.greenOnlyCount + 1 } }
  else if !jsTruthyOpt greenLog then
    { report with
      blueOnlyLogs := report.blueOnlyLogs ++ [(i, blueLog)],
      summary := { report.summary with blueOnlyCount := report.summary.blueOnlyCount + 1 } }
  else
    let bv := blueLog.getD .null
    let gv := greenLog.getD .null
    let comparison := cmp bv gv
    if comparison.hasDifferences then
      { report with
        logDifferences := report.logDifferences ++
          [{ index := i,
             blueLog := removeIgnoredFields ignoreFields ignorePatterns bv "",
             greenLog := removeIgnoredFields ignoreFields ignorePatterns gv "",
             differences := comparison.differences }],
        summary := { report.summary with mismatchedCount := report.summary.mismatchedCount + 1 } }
    else
      { report with
        summary := { report.summary with matchedCount := report.summary.matchedCount + 1 } }

/-- The index loop of `compareWorkflowLogs`, with the pairwise comparison
abstracted as `cmp`. -/
def compareWorkflowLogsWith (cmp : JValue → JValue → ComparisonResult)
    (blueLogs greenLogs : List JValue) (ignoreFields : List String)
    (ignorePatterns : List IgnorePattern) : WorkflowReport :=
  let init : WorkflowReport :=
    { summary :=
        { blueLogCount := blueLogs.length, greenLogCount := greenLogs.length,
          matchedCount := 0, mismatchedCount := 0, blueOnlyCount := 0, greenOnlyCount := 0 },
      countMismatch := blueLogs.length ≠ greenLogs.length,
      logDifferences := [], blueOnlyLogs := [], greenOnlyLogs := [],
      ignoredFields := ignoreFields, ignoredPatterns := ignorePatterns }
  let maxLength := max blueLogs.length greenLogs.length
  (List.range maxLength).foldl
    (cwlStep cmp ignoreFields ignorePatterns blueLogs greenLogs) init

/-- logComparator.js `compareWorkflowLogs`, with the merged
default-plus-options exclusion configuration passed directly (the JSON
default file is external I/O).  The unused `matchField` option is
omitted. -/
def compareWorkflowLogs (blueLogs greenLogs : List JValue) (ignoreFields : List String)
    (ignorePatterns : List IgnorePattern) : WorkflowReport :=
  compareWorkflowLogsWith
    (fun blueLog greenLog => compareLogEntries blueLog greenLog ignoreFields ignorePatterns)
    blueLogs greenLogs ignoreFields ignorePatterns

/-!
Embedding of the pattern catalog of src/src/rag/ragAnalyzer.js.
-/

/-- A single-quote character as a string (several keywords contain one). -/
def squote : String := String.mk ['\'']

/-- ragAnalyzer.js `LOG_LEVEL_SEVERITY`: severity score and category per
known log level. -/
def LOG_LEVEL_SEVERITY : List (String × Nat × String) :=
  [ ("fatal", 100, "FATAL"),
    ("critical", 100, "CRITICAL"),
    ("emergency", 100, "EMERGENCY"),
    ("panic", 100, "PANIC"),
    ("error", 80, "ERROR"),
    ("err", 80, "ERROR"),
    ("severe", 80, "SEVERE"),
    ("alert", 75, "ALERT"),
    ("warn", 50, "WARNING"),
    ("warning", 50, "WARNING"),
    ("caution", 45, "WARNING"),
    ("notice", 20, "NOTICE"),
    ("notic", 20, "NOTICE") ]

/-- ragAnalyzer.js `NEGATIVE_ACTION_KEYWORDS` in source order.  The source
object literal lists the key `refused` twice (with 15, then with 12); in
JavaScript the later value wins at the first key's position, so it appears
here once with 12. -/
def NEGATIVE_ACTION_KEYWORDS : List (String × Nat) :=
  [ ("failed", 15), ("failure", 15), ("fail", 12), ("failing", 12),
    ("error", 15), ("errors", 15), ("errored", 15),
    ("exception", 20), ("exceptions", 20), ("threw", 15), ("thrown", 15), ("throw", 12),
    ("unable", 12), ("cannot", 12), ("can" ++ squote ++ "t", 12), ("couldn" ++ squote ++ "t", 12),
    ("could not", 12), ("won" ++ squote ++ "t", 10), ("wouldn" ++ squote ++ "t", 10),
    ("would not", 10), ("should not", 8), ("must not", 10),
    ("missing", 12), ("absent", 10), ("not found", 15), ("notfound", 15), ("no such", 12),
    ("does not exist", 12), ("doesn" ++ squote ++ "t exist", 12), ("nonexistent", 10),
    ("not set", 12), ("unset", 10), ("not defined", 12), ("not available", 12),
    ("unavailable", 12),
    ("undefined", 18), ("null", 15), ("nil", 12), ("none", 10), ("n/a", 12),
    ("empty", 10), ("blank", 8),
    ("invalid", 12), ("malformed", 12), ("corrupt", 15), ("corrupted", 15), ("broken", 12),
    ("bad", 8), ("illegal", 12), ("incorrect", 10), ("wrong", 8), ("mismatch", 10),
    ("inconsistent", 12),
    ("timeout", 15), ("timed out", 15), ("timedout", 15), ("expired", 10),
    ("expiration", 8), ("deadline exceeded", 15),
    ("refused", 12), ("refused connection", 18), ("connection refused", 18),
    ("disconnected", 12), ("disconnect", 10), ("unreachable", 15),
    ("connection failed", 18), ("connection error", 18), ("network error", 15),
    ("connection lost", 15), ("connection reset", 12), ("connection closed", 10),
    ("denied", 12), ("forbidden", 12), ("unauthorized", 12), ("unauthenticated", 12),
    ("permission denied", 15), ("access denied", 15), ("not permitted", 12),
    ("not allowed", 10),
    ("crash", 20), ("crashed", 20), ("abort", 15), ("aborted", 15), ("terminated", 12),
    ("killed", 12), ("segfault", 25), ("segmentation fault", 25), ("core dump", 20),
    ("panic", 20), ("fatal", 20),
    ("retry", 8), ("retrying", 8), ("retried", 8), ("recovering", 8), ("recovery", 8),
    ("fallback", 8), ("degraded", 10),
    ("rejected", 12), ("reject", 10), ("declined", 10),
    ("unsuccessful", 15), ("incomplete", 10), ("partial", 8), ("skipped", 8),
    ("ignored", 6), ("dropped", 12), ("lost", 12), ("blocked", 10), ("stuck", 10),
    ("hung", 12), ("frozen", 12), ("unresponsive", 15) ]

/-- ragAnalyzer.js `NULL_VALUE_INDICATORS`. -/
def NULL_VALUE_INDICATORS : List String :=
  [ "undefined", "null", "nil", "none", "empty", "n/a", "na", "not available",
    "not set", "unset", "missing", "absent", "void", "blank", "\"\"", squote ++ squote,
    "[]", "\x7b\x7d", "<null>", "<undefined>", "<empty>", "<none>", "[null]",
    "[undefined]", "(null)", "(undefined)", "NaN", "unknown", "not defined" ]

/-- ragAnalyzer.js `FAILURE_STATUS_INDICATORS`. -/
def FAILURE_STATUS_INDICATORS : List String :=
  [ "failed", "failure", "error", "err", "unsuccessful", "rejected", "denied",
    "refused", "timeout", "timed out", "expired", "invalid", "broken", "corrupt",
    "disconnected", "unreachable", "unavailable", "down", "offline", "stopped",
    "terminated", "aborted", "crashed", "killed", "dead", "exception", "fault",
    "bad", "wrong", "incorrect", "mismatch", "conflict", "blocked", "stuck",
    "hung", "frozen", "unresponsive", "skipped", "ignored", "dropped", "lost" ]

/-!
Transcription helpers naming the regex idioms of the catalog.
-/

/-- `\b` -/
def wb : RE := .bound

/-- `\w+` -/
def w1 : RE := rplus (.cls .word)

/-- `\w*` -/
def w0 : RE := .star (.cls .word)

/-- `\s+` -/
def sp1 : RE := rplus (.cls .space)

/-- `\s*` -/
def sp0 : RE := .star (.cls .space)

/-- `.*` -/
def any0 : RE := .star (.cls .dotAny)

/-- `.+` -/
def any1 : RE := rplus (.cls .dotAny)

/-- `[A-Za-z][A-Za-z0-9_ ]*` (key before a colon). -/
def keyColon : RE := rcat [.cls .alphaAscii, .star (.cls .wordOrSpace)]

/-- `[A-Za-z][A-Za-z0-9_]*` (key before an equals sign). -/
def keyEq : RE := rcat [.cls .alphaAscii, .star (.cls .word)]

/-- `($|[cs])` -/
def endOrPunct (cs : List Char) : RE := .alt .eos (.cls (.oneOf cs))

/-- `not\s+found` -/
def reNotFound : RE := rcat [lit "not", sp1, lit "found"]

/-- `4\d{2}|5\d{2}` -/
def httpStatusCode : RE :=
  .alt (rcat [.chr '4', .cls .digit, .cls .digit]) (rcat [.chr '5', .cls .digit, .cls .digit])

/-- A structural pattern of the catalog: regex, score contribution and
category tag. -/
structure ScoredPattern where
  regex : RE
  score : Nat
  category : String
deriving DecidableEq

/-- ragAnalyzer.js `buildFieldValuePatterns`: six patterns generated from
the null/failure indicator lists.  The source escapes each indicator so it
matches literally inside the built alternation; here the indicators are
alternated as literal strings directly. -/
def buildFieldValuePatterns : List ScoredPattern :=
  let nullValueAlt := ralt (NULL_VALUE_INDICATORS.map lit)
  let failureAlt := ralt (FAILURE_STATUS_INDICATORS.map lit)
  let tailPunct : List Char := [',', ';', ']', ')', '\x7d']
  [ { regex := rcat [keyColon, .chr ':', sp0, nullValueAlt, sp0, endOrPunct tailPunct],
      score := 28, category := "NULL_VALUE_ASSIGNMENT" },
    { regex := rcat [keyEq, sp0, .chr '=', sp0, nullValueAlt, sp0, endOrPunct tailPunct],
      score := 28, category := "NULL_VALUE_ASSIGNMENT" },
    { regex := rcat [wb, wordAlt ["is", "was", "are", "were", "became", "becomes"], sp1,
        nullValueAlt, wb],
      score := 25, category := "NULL_STATE" },
    { regex := rcat [wb, wordAlt ["got", "received", "returned", "yielded", "produced",
        "gave", "gives"], sp1, nullValueAlt, wb],
      score := 25, category := "NULL_RETURN" },
    { regex := rcat [keyColon, .chr ':', sp0, failureAlt, sp0, endOrPunct tailPunct],
      score := 25, category := "STATUS_FAILURE" },
    { regex := rcat [keyEq, sp0, .chr '=', sp0, failureAlt, sp0, endOrPunct tailPunct],
      score := 25, category := "STATUS_FAILURE" } ]

/-- ragAnalyzer.js `STRUCTURAL_PATTERNS`, part 1: arrow, colon, equals, `is` and return/result patterns (source order). -/
def structuralPatternsValueShapes : List ScoredPattern :=
  [
    { regex := rcat [.chr '-', ropt (.chr '>'), sp0,
        ralt [lit "undefined", lit "null", lit "nil", lit "none", lit "false", lit "empty",
          .chr '0', lit "\"\"", lit (squote ++ squote), lit "[]", lit "\x7b\x7d", lit "N/A"],
        sp0, endOrPunct [',', ';']],
      score := 28, category := "NULL_STATE" },
    { regex := rcat [lit "=>", sp0,
        ralt [lit "undefined", lit "null", lit "nil", lit "none", lit "false", lit "empty",
          lit "N/A"], sp0, endOrPunct [',', ';']],
      score := 28, category := "NULL_STATE" },
    { regex := rcat [keyColon, .chr ':', sp0, lit "undefined", sp0,
        endOrPunct [',', ';', ')', ']', '\x7d']],
      score := 30, category := "UNDEFINED_VALUE" },
    { regex := rcat [keyColon, .chr ':', sp0, lit "null", sp0,
        endOrPunct [',', ';', ')', ']', '\x7d']],
      score := 28, category := "NULL_VALUE" },
    { regex := rcat [keyColon, .chr ':', sp0, lit "N/A", sp0,
        endOrPunct [',', ';', ')', ']', '\x7d']],
      score := 25, category := "NOT_AVAILABLE" },
    { regex := rcat [keyColon, .chr ':', sp0, wordAlt ["empty", "none", "nil", "missing"],
        sp0, endOrPunct [',', ';', ')', ']', '\x7d']],
      score := 25, category := "EMPTY_VALUE" },
    { regex := rcat [keyColon, .chr ':', sp0,
        wordAlt ["failed", "failure", "error", "timeout"], sp0,
        endOrPunct [',', ';', ')', ']', '\x7d']],
      score := 28, category := "STATUS_FAILURE" },
    { regex := rcat [keyEq, sp0, .chr '=', sp0, lit "undefined", wb],
      score := 28, category := "UNDEFINED_VALUE" },
    { regex := rcat [keyEq, sp0, .chr '=', sp0, lit "null", wb],
      score := 26, category := "NULL_VALUE" },
    { regex := rcat [keyEq, sp0, .chr '=', sp0, lit "N/A", wb],
      score := 24, category := "NOT_AVAILABLE" },
    { regex := rcat [wb, w1, sp1, wordAlt ["is", "was", "are", "were"], sp1,
        wordAlt ["undefined", "null", "empty", "missing", "invalid", "unavailable"], wb],
      score := 25, category := "STATE_INVALID" },
    { regex := rcat [lit "returne", ropt (.chr 'd'), sp1,
        wordAlt ["undefined", "null", "nil", "none", "nothing", "empty", "false"]],
      score := 25, category := "NULL_RETURN" },
    { regex := rcat [lit "return", ropt (.chr 's'), sp1,
        wordAlt ["undefined", "null", "nil", "none", "nothing", "empty", "false"]],
      score := 25, category := "NULL_RETURN" },
    { regex := rcat [lit "result", sp0, ropt (ralt [lit "is", lit "was", .chr ':']), sp0,
        wordAlt ["undefined", "null", "empty", "none", "invalid"]],
      score := 25, category := "NULL_RETURN" },
    { regex := rcat [ralt [lit "got", lit "received", rcat [lit "yield", ropt (.chr 's')],
        rcat [lit "give", ropt (.chr 's')], lit "gave"], sp1,
        wordAlt ["undefined", "null", "empty", "nothing", "false"]],
      score := 24, category := "NULL_RETURN" } ]

/-- ragAnalyzer.js `STRUCTURAL_PATTERNS`, part 2: not-found, failed and exception/error patterns. -/
def structuralPatternsFailureShapes : List ScoredPattern :=
  [
    { regex := rcat [wb, w1, sp1, lit "not", sp1, lit "found", wb],
      score := 22, category := "NOT_FOUND" },
    { regex := rcat [wb, lit "not", sp1, lit "found", sp0, .cls (.oneOf [':', '-'])],
      score := 24, category := "NOT_FOUND" },
    { regex := rcat [wb, ralt [lit "could", lit "can"], ropt (.chr 'n'), ropt (.chr '\''),
        ropt (.chr 't'), sp1,
        wordAlt ["find", "locate", "get", "retrieve", "fetch", "load", "access"], wb],
      score := 20, category := "NOT_FOUND" },
    { regex := rcat [wb, ralt [lit "no", lit "zero", .chr '0'], sp1,
        ralt [rcat [lit "result", ropt (.chr 's')], rcat [lit "record", ropt (.chr 's')],
          rcat [lit "row", ropt (.chr 's')], rcat [lit "entrie", ropt (.chr 's')],
          rcat [lit "item", ropt (.chr 's')], lit "data"], sp1,
        wordAlt ["found", "returned", "available"]],
      score := 20, category := "EMPTY_RESULT" },
    { regex := rcat [wb, lit "does", sp0, .chr 'n', ropt (.chr '\''), ropt (.chr 'o'),
        ropt (.chr 't'), sp1, lit "exist", wb],
      score := 22, category := "NOT_FOUND" },
    { regex := rcat [wb, w1, sp1, lit "failed", sp0,
        ralt [lit "to", lit "with", .chr ':', .eos]],
      score := 22, category := "OPERATION_FAILED" },
    { regex := rcat [wb, lit "failed", sp1, lit "to", sp1, w1],
      score := 22, category := "OPERATION_FAILED" },
    { regex := rcat [wb, lit "failure", sp1,
        wordAlt ["in", "on", "at", "during", "while", "of"], wb],
      score := 20, category := "OPERATION_FAILED" },
    { regex := rcat [wb, wordAlt ["operation", "request", "call", "action", "process"], sp1,
        wordAlt ["failed", "unsuccessful", "rejected"]],
      score := 22, category := "OPERATION_FAILED" },
    { regex := rcat [wb, lit "exception", sp0, .chr ':'],
      score := 28, category := "EXCEPTION" },
    { regex := rcat [wb, ralt [lit "throw", lit "threw", lit "thrown",
        rcat [lit "raisin", ropt (.chr 'g')], rcat [lit "raise", ropt (.chr 'd')]], sp1,
        w0, lit "exception"],
      score := 28, category := "EXCEPTION" },
    { regex := rcat [wb, w1, lit "exception", wb],
      score := 22, category := "EXCEPTION" },
    { regex := rcat [wb, w1, lit "error", wb],
      score := 18, category := "ERROR_TYPE" },
    { regex := rcat [wb, lit "error", sp0, .chr ':', sp0, any1],
      score := 22, category := "ERROR_MESSAGE" },
    { regex := rcat [wb, wordAlt ["fatal", "critical", "severe"], sp1,
        wordAlt ["error", "exception", "failure"]],
      score := 30, category := "CRITICAL_ERROR" } ]

/-- ragAnalyzer.js `STRUCTURAL_PATTERNS`, part 3: session/state retrieval, database and API/HTTP patterns. -/
def structuralPatternsStateDbApi : List ScoredPattern :=
  [
    { regex := rcat [wb, wordAlt ["get", "fetch", "retrieve", "load", "read"], sp1, w1, sp0,
        wordAlt ["variable", "value", "data", "config", "setting", "property"], any0,
        rplus (.alt (.cls (.oneOf [':', '-', '=', '>'])) (.cls .space)),
        wordAlt ["undefined", "null", "empty", "missing"]],
      score := 32, category := "STATE_RETRIEVAL_FAILURE" },
    { regex := rcat [wb, wordAlt ["session", "context", "state"], sp1, w0, sp0,
        ralt [reNotFound, lit "undefined", lit "null", lit "expired", lit "invalid",
          lit "missing", lit "empty"]],
      score := 30, category := "SESSION_ERROR" },
    { regex := rcat [wb, lit "variable", sp1,
        ralt [reNotFound, lit "undefined", lit "null", lit "missing", lit "empty"]],
      score := 28, category := "STATE_RETRIEVAL_FAILURE" },
    { regex := rcat [wb, wordAlt ["user", "account", "profile", "session"], sp0,
        ropt (ralt [lit "id", lit "ID", lit "Id"]), sp0,
        ropt (.cls (.oneOf [':', '-', '=', '>'])), sp0,
        ralt [lit "undefined", lit "null", lit "missing", reNotFound, lit "N/A"]],
      score := 30, category := "IDENTITY_ERROR" },
    { regex := rcat [wb, lit "cache", sp1,
        wordAlt ["miss", "failure", "error", "expired", "empty", "invalid"]],
      score := 24, category := "CACHE_ERROR" },
    { regex := rcat [wb, wordAlt ["lookup", "search", "query"], sp1,
        ralt [lit "failed", rcat [lit "returned", sp1, lit "nothing"],
          rcat [lit "no", sp1, lit "result", ropt (.chr 's')]]],
      score := 22, category := "LOOKUP_FAILURE" },
    { regex := rcat [wb, wordAlt ["sql", "database", "db", "query", "transaction"], sp0,
        wordAlt ["error", "exception", "failure", "failed"]],
      score := 26, category := "DATABASE_ERROR" },
    { regex := rcat [wb, lit "query", sp1, wordAlt ["failed", "error", "timeout"]],
      score := 24, category := "DATABASE_ERROR" },
    { regex := rcat [wb, lit "deadlock", wb],
      score := 28, category := "DATABASE_ERROR" },
    { regex := rcat [wb, lit "duplicate", sp1, wordAlt ["key", "entry", "record"]],
      score := 22, category := "DATABASE_ERROR" },
    { regex := rcat [wb, lit "foreign", sp1, lit "key", sp1,
        wordAlt ["violation", "constraint", "error"]],
      score := 24, category := "DATABASE_ERROR" },
    { regex := rcat [wb, lit "connection", sp1, ropt (rcat [lit "to", sp1]),
        ralt [lit "database", lit "db"], sp0,
        wordAlt ["failed", "refused", "timeout", "lost"]],
      score := 26, category := "DATABASE_ERROR" },
    { regex := rcat [wb, wordAlt ["http", "api", "rest", "graphql"], sp0,
        wordAlt ["error", "failure", "failed", "exception"]],
      score := 22, category := "API_ERROR" },
    { regex := rcat [wb, lit "status", sp0, ropt (.cls (.oneOf ['=', ':'])), sp0,
        httpStatusCode, wb],
      score := 24, category := "HTTP_ERROR" },
    { regex := rcat [wb, httpStatusCode, sp1, wordAlt ["error", "response", "status"]],
      score := 24, category := "HTTP_ERROR" },
    { regex := rcat [wb, lit "response", sp0, ropt (ralt [lit "is", lit "was", .chr ':']),
        sp0, wordAlt ["empty", "null", "undefined", "invalid", "malformed"]],
      score := 24, category := "API_ERROR" },
    { regex := rcat [wb, lit "api", sp1, wordAlt ["call", "request"], sp1,
        wordAlt ["failed", "timeout", "rejected"]],
      score := 24, category := "API_ERROR" } ]

/-- ragAnalyzer.js `STRUCTURAL_PATTERNS`, part 4: connection/network, memory/resource, validation and auth patterns. -/
def structuralPatternsNetResourceAuth : List ScoredPattern :=
  [
    { regex := rcat [wb, lit "connection", sp1,
        wordAlt ["failed", "refused", "reset", "timeout", "closed", "lost", "dropped"]],
      score := 26, category := "CONNECTION_ERROR" },
    { regex := rcat [wb, wordAlt ["network", "socket", "tcp", "udp"], sp0,
        wordAlt ["error", "failure", "timeout", "unreachable"]],
      score := 24, category := "NETWORK_ERROR" },
    { regex := rcat [wb, lit "host", sp1, ralt [lit "unreachable", lit "unknown", reNotFound]],
      score := 24, category := "NETWORK_ERROR" },
    { regex := rcat [wb, lit "dns", sp1,
        ralt [lit "error", lit "failure", lit "timeout", reNotFound]],
      score := 24, category := "NETWORK_ERROR" },
    { regex := rcat [wb, lit "out", sp1, lit "of", sp1,
        wordAlt ["memory", "space", "disk", "resources", "handles", "connections"]],
      score := 32, category := "RESOURCE_ERROR" },
    { regex := rcat [wb, lit "memory", sp1,
        ralt [lit "leak", lit "overflow", lit "exhausted",
          rcat [lit "allocation", sp1, lit "failed"]]],
      score := 30, category := "MEMORY_ERROR" },
    { regex := rcat [wb, lit "heap", sp1,
        ralt [lit "overflow", lit "exhausted", lit "full", rcat [lit "out", sp1, lit "of"]]],
      score := 30, category := "MEMORY_ERROR" },
    { regex := rcat [wb, lit "stack", sp1, wordAlt ["overflow", "exhausted"]],
      score := 32, category := "MEMORY_ERROR" },
    { regex := rcat [wb, wordAlt ["resource", "handle", "file", "socket"], sp1,
        wordAlt ["limit", "exhausted", "leak"]],
      score := 26, category := "RESOURCE_ERROR" },
    { regex := rcat [wb, ralt [lit "assertion", lit "assert"], sp1,
        wordAlt ["failed", "error", "failure"]],
      score := 28, category := "ASSERTION_FAILURE" },
    { regex := rcat [wb, lit "validation", sp1,
        wordAlt ["failed", "error", "failure", "unsuccessful"]],
      score := 22, category := "VALIDATION_ERROR" },
    { regex := rcat [wb, lit "invalid", sp1, w1, sp0,
        wordAlt ["format", "type", "value", "input", "data", "syntax", "schema"]],
      score := 20, category := "VALIDATION_ERROR" },
    { regex := rcat [wb, wordAlt ["schema", "format", "type"], sp1,
        wordAlt ["mismatch", "error", "invalid", "violation"]],
      score := 22, category := "VALIDATION_ERROR" },
    { regex := rcat [wb, lit "required", sp1,
        wordAlt ["field", "parameter", "argument", "property"], sp1,
        ralt [lit "missing", rcat [lit "not", sp1, lit "provided"], lit "undefined",
          lit "null"]],
      score := 26, category := "VALIDATION_ERROR" },
    { regex := rcat [wb, ralt [lit "auth", lit "authentication", lit "authorization",
        rcat [lit "auth", ropt (.chr 'z')], lit "login"], sp0,
        wordAlt ["failed", "failure", "error", "denied", "rejected", "invalid"]],
      score := 24, category := "AUTH_ERROR" },
    { regex := rcat [wb, lit "token", sp1,
        ralt [lit "expired", lit "invalid", lit "missing", lit "rejected", lit "revoked",
          reNotFound]],
      score := 24, category := "AUTH_ERROR" },
    { regex := rcat [wb, lit "credential", ropt (.chr 's'), sp1,
        wordAlt ["invalid", "expired", "rejected", "failed", "incorrect", "wrong"]],
      score := 24, category := "AUTH_ERROR" },
    { regex := rcat [wb, ralt [lit "access", lit "permission"], sp1,
        wordAlt ["denied", "forbidden", "refused", "unauthorized"]],
      score := 24, category := "AUTH_ERROR" },
    { regex := rcat [wb, lit "unauthorized", sp1, wordAlt ["access", "request", "operation"]],
      score := 24, category := "AUTH_ERROR" } ]

/-- ragAnalyzer.js `STRUCTURAL_PATTERNS`, part 5: config, timeout, parsing, message/event, data-integrity and concurrency patterns. -/
def structuralPatternsConfigTimeoutParse : List ScoredPattern :=
  [
    { regex := rcat [wb, lit "config", ropt (lit "uration"), sp0,
        ralt [lit "error", lit "missing", lit "invalid", reNotFound, lit "failed",
          lit "undefined"]],
      score := 22, category := "CONFIG_ERROR" },
    { regex := rcat [wb, lit "missing", sp1, ropt (rcat [lit "required", sp1]),
        wordAlt ["config", "setting", "parameter", "argument", "env", "environment"]],
      score := 22, category := "CONFIG_ERROR" },
    { regex := rcat [wb, lit "environment", sp1, lit "variable", sp1,
        ralt [rcat [lit "not", sp1, lit "set"], lit "missing", lit "undefined", lit "empty"]],
      score := 24, category := "CONFIG_ERROR" },
    { regex := rcat [wb, ralt [lit "timeout", rcat [lit "time", ropt (.chr 'd'), sp0,
        lit "out"]], sp0,
        ropt (wordAlt ["error", "exception", "failure", "occurred", "reached", "exceeded"])],
      score := 24, category := "TIMEOUT" },
    { regex := rcat [wb, wordAlt ["operation", "request", "connection", "query"], sp1,
        lit "time", ropt (.chr 'd'), sp0, lit "out"],
      score := 24, category := "TIMEOUT" },
    { regex := rcat [wb, lit "exceeded", sp1,
        ralt [lit "timeout", rcat [lit "time", sp0, lit "limit"], lit "deadline"]],
      score := 24, category := "TIMEOUT" },
    { regex := rcat [wb, wordAlt ["parse", "parsing", "deserialize", "unmarshal"], sp0,
        wordAlt ["error", "failed", "failure", "exception"]],
      score := 22, category := "PARSE_ERROR" },
    { regex := rcat [wb, wordAlt ["json", "xml", "yaml", "csv"], sp0,
        ropt (ralt [lit "parse", lit "parsing"]), sp0,
        wordAlt ["error", "failed", "invalid", "malformed"]],
      score := 22, category := "PARSE_ERROR" },
    { regex := rcat [wb, lit "syntax", sp1, lit "error"],
      score := 24, category := "PARSE_ERROR" },
    { regex := rcat [wb, lit "malformed", sp1,
        wordAlt ["data", "input", "request", "response", "message", "payload"]],
      score := 22, category := "PARSE_ERROR" },
    { regex := rcat [wb, lit "message", sp1, wordAlt ["processing", "handling"], sp1,
        wordAlt ["failed", "error", "rejected"]],
      score := 24, category := "MESSAGE_ERROR" },
    { regex := rcat [wb, wordAlt ["event", "message", "request"], sp1,
        wordAlt ["dropped", "lost", "rejected", "undelivered", "unprocessed"]],
      score := 24, category := "MESSAGE_ERROR" },
    { regex := rcat [wb, lit "queue", sp1, wordAlt ["full", "overflow", "blocked", "error"]],
      score := 22, category := "QUEUE_ERROR" },
    { regex := rcat [wb, wordAlt ["data", "record", "entry"], sp1,
        wordAlt ["corrupt", "corrupted", "inconsistent", "invalid", "missing"]],
      score := 26, category := "DATA_INTEGRITY" },
    { regex := rcat [wb, lit "checksum", sp1, wordAlt ["mismatch", "error", "failed",
        "invalid"]],
      score := 26, category := "DATA_INTEGRITY" },
    { regex := rcat [wb, lit "integrity", sp1, wordAlt ["check", "violation", "error",
        "failed"]],
      score := 26, category := "DATA_INTEGRITY" },
    { regex := rcat [wb, wordAlt ["lock", "mutex", "semaphore"], sp1,
        wordAlt ["timeout", "failed", "error", "conflict", "deadlock"]],
      score := 26, category := "CONCURRENCY_ERROR" },
    { regex := rcat [wb, lit "race", sp1, lit "condition"],
      score := 26, category := "CONCURRENCY_ERROR" },
    { regex := rcat [wb, lit "concurrent", sp1, wordAlt ["access", "modification"], sp1,
        wordAlt ["error", "conflict", "violation"]],
      score := 24, category := "CONCURRENCY_ERROR" } ]

/-- ragAnalyzer.js `STRUCTURAL_PATTERNS`: the five static sections above in source order, followed by the dynamically generated field/value patterns.  Every regex carries the `i` flag in the source; the scorer therefore tests them case-insensitively. -/
def STRUCTURAL_PATTERNS : List ScoredPattern :=
  structuralPatternsValueShapes ++ structuralPatternsFailureShapes ++
    structuralPatternsStateDbApi ++ structuralPatternsNetResourceAuth ++
    structuralPatternsConfigTimeoutParse ++ buildFieldValuePatterns

/-- A context modifier: regex plus score multiplier. -/
structure ContextModifier where
  regex : RE
  multiplier : ℚ
deriving DecidableEq

/-- The amplifier and dampener groups of `CONTEXT_MODIFIERS`. -/
structure ContextModifiers where
  amplifiers : List ContextModifier
  dampeners : List ContextModifier

/-- ragAnalyzer.js `CONTEXT_MODIFIERS`: amplifier multipliers 1.5, 1.3,
1.4, 1.4 and dampener multipliers 0.3, 0.5, 0.4, 0.5, 0.7, written as
exact rationals. -/
def CONTEXT_MODIFIERS : ContextModifiers :=
  { amplifiers :=
      [ { regex := rcat [wb, wordAlt ["critical", "severe", "fatal", "serious", "major"], wb],
          multiplier := (3 : ℚ)/2 },
        { regex := rcat [wb, lit "unexpected", wb], multiplier := (13 : ℚ)/10 },
        { regex := rcat [wb, lit "unhandled", wb], multiplier := (7 : ℚ)/5 },
        { regex := rcat [wb, lit "uncaught", wb], multiplier := (7 : ℚ)/5 } ],
    dampeners :=
      [ { regex := rcat [wb, ralt [rcat [lit "no", sp1, lit "error"],
            rcat [lit "without", sp1, lit "error"], rcat [lit "error", sp1, lit "free"],
            lit "successfully"], wb],
          multiplier := (3 : ℚ)/10 },
        { regex := rcat [wb, ralt [rcat [lit "checking", sp1, lit "for"],
            rcat [lit "looking", sp1, lit "for"], rcat [lit "searching", sp1, lit "for"]], wb],
          multiplier := (1 : ℚ)/2 },
        { regex := rcat [wb, lit "if", sp1, any0, sp1,
            wordAlt ["error", "fail", "null", "undefined"], wb],
          multiplier := (2 : ℚ)/5 },
        { regex := rcat [wb, wordAlt ["test", "mock", "stub", "fake", "dummy"], wb],
          multiplier := (1 : ℚ)/2 },
        { regex := rcat [wb, lit "debug", ropt (lit "ging"), wb],
          multiplier := (7 : ℚ)/10 } ] }

/-- ragAnalyzer.js `ERROR_SCORE_THRESHOLD`. -/
def ERROR_SCORE_THRESHOLD : ℤ := 25

/-- ragAnalyzer.js `HIGH_CONFIDENCE_THRESHOLD`. -/
def HIGH_CONFIDENCE_THRESHOLD : ℤ := 50

/-- The analysis record returned by `analyzeLogForErrors`. -/
structure ErrorAnalysis where
  score : ℤ
  categories : List String
  reasons : List String
  isError : Bool
  confidence : String
deriving DecidableEq

/-- The zero-value analysis (the initial `result` of the source, returned
unchanged for a falsy record). -/
def emptyAnalysis : ErrorAnalysis :=
  { score := 0, categories := [], reasons := [], isError := false, confidence := "LOW" }

/-- The fields of a log record that `analyzeLogForErrors` reads:
`log.message`, `log.level` and the nested `log.log` object (for
`log.log?.level`); each may be absent and may hold a value of any
shape. -/
structure ScorerLog where
  message : Option JValue
  level : Option JValue
  logProp : Option JValue

/-- The value of `log.message || ''`. -/
def resolvedMessageV (log : ScorerLog) : JValue :=
  (jsOr log.message (some (.str ""))).getD (.str "")

/-- The value of `log.log?.level || log.level || ''`. -/
def resolvedLevelV (log : ScorerLog) : JValue :=
  (jsOr (optChain log.logProp "level") (jsOr log.level (some (.str "")))).getD (.str "")

/-- Running accumulator for the additive scoring steps (the `score`,
`categories` and `reasons` fields of the source's `result`). -/
structure ScoreAcc where
  score : Nat
  categories : List String
  reasons : List String

/-- Step 1 of the scorer: the log-level severity contribution. -/
def applyLogLevel (logLevel : String) (acc : ScoreAcc) : ScoreAcc :=
  if logLevel ≠ "" then
    match LOG_LEVEL_SEVERITY.lookup logLevel with
    | some levelInfo =>
        { score := acc.score + levelInfo.1,
          categories := acc.categories ++ [levelInfo.2],
          reasons := acc.reasons ++ ["Log level: " ++ jsToUpper logLevel] }
    | none => acc
  else acc

/-- Step 2 of the scorer: every keyword found as a substring of the
lower-cased message contributes its score. -/
def applyKeywords (messageLower : String) (acc : ScoreAcc) : ScoreAcc :=
  NEGATIVE_ACTION_KEYWORDS.foldl
    (fun a kw =>
      if strIncludes messageLower kw.1 then
        { a with score := a.score + kw.2,
                 reasons := a.reasons ++ ["Keyword: \"" ++ kw.1 ++ "\""] }
      else a)
    acc

/-- Step 3 of the scorer: every structural pattern matching the raw
message contributes its score; categories are deduplicated, reasons are
not. -/
def applyPatterns (message : String) (acc : ScoreAcc) : ScoreAcc :=
  STRUCTURAL_PATTERNS.foldl
    (fun a p =>
      if reTest true p.regex message then
        { score := a.score + p.score,
          categories :=
            if a.categories.contains p.category then a.categories
            else a.categories ++ [p.category],
          reasons := a.reasons ++ ["Pattern: " ++ p.category] }
      else a)
    acc

/-- One iteration of a context-modifier loop: a matching modifier
multiplies the running value and appends its reason. -/
def modifierStep (reason message : String) (mr : ℚ × List String) (c : ContextModifier) :
    ℚ × List String :=
  if reTest true c.regex message then (mr.1 * c.multiplier, mr.2 ++ [reason]) else mr

/-- Step 4a: the amplifier loop, accumulating the multiplier and its
reasons. -/
def applyAmplifiers (message : String) (mr : ℚ × List String) : ℚ × List String :=
  CONTEXT_MODIFIERS.amplifiers.foldl (modifierStep "Amplifier: severity increased" message) mr

/-- Step 4b: the dampener loop. -/
def applyDampeners (message : String) (mr : ℚ × List String) : ℚ × List String :=
  CONTEXT_MODIFIERS.dampeners.foldl (modifierStep "Dampener: possible false positive" message) mr

/-- The product of the multipliers of the modifiers in `l` that match the
message. -/
def modifierProduct (message : String) (l : List ContextModifier) : ℚ :=
  l.foldl (fun m c => if reTest true c.regex message then m * c.multiplier else m) 1

/-- The product of the multipliers of the dampeners matching a message. -/
def dampenerProduct (message : String) : ℚ :=
  modifierProduct message CONTEXT_MODIFIERS.dampeners

/-- The body of `analyzeLogForErrors` once the level and message fields
have been coerced to strings: the four scoring steps, `Math.round`
(which is `round` on `ℚ`) of the modifier-scaled total, and the
classification fields. -/
def analyzeStrings (levelRaw message : String) : ErrorAnalysis :=
  let logLevel := jsTrim (jsToLower levelRaw)
  let acc1 := applyLogLevel logLevel { score := 0, categories := [], reasons := [] }
  let messageLower := jsToLower message
  let acc2 := applyKeywords messageLower acc1
  let acc3 := applyPatterns message acc2
  let mr := applyDampeners message (applyAmplifiers message (1, []))
  let score : ℤ := round ((acc3.score : ℚ) * mr.1)
  let isError : Bool := decide (ERROR_SCORE_THRESHOLD ≤ score)
  let confidence : String :=
    if HIGH_CONFIDENCE_THRESHOLD ≤ score then "HIGH"
    else if ERROR_SCORE_THRESHOLD ≤ score then "MEDIUM"
    else "LOW"
  let categories :=
    if acc3.categories.isEmpty && isError then ["GENERAL_ERROR"] else acc3.categories
  { score := score, categories := categories, reasons := acc3.reasons ++ mr.2,
    isError := isError, confidence := confidence }

/-- The property names `LOG_LEVEL_SEVERITY[logLevel]` finds on
`Object.prototype` when the own keys miss: the lookup is a JavaScript
property access, and of the prototype's properties exactly
`constructor` (the `Object` function) and `__proto__`
(`Object.prototype`) are all-lowercase, so they alone survive the
preceding `.toLowerCase()`.  For these the guard
`logLevel && LOG_LEVEL_SEVERITY[logLevel]` sees a truthy `levelInfo`
whose `.score` is `undefined`, and `result.score += levelInfo.score`
poisons the score to `NaN`. -/
def protoLevelKeys : List String := ["constructor", "__proto__"]

/-- The record returned when the level lookup hit an `Object.prototype`
entry.  Its `score` field is `NaN` (representable by no integer, hence
carried by the `nanScore` tag of `ScorerRet` instead of a field); the
level category pushed is `levelInfo.category = undefined` (`none`); every
later `NaN` comparison is false, so `isError` is `false` and the
confidence stays `"LOW"`; `GENERAL_ERROR` is never appended because
`categories` already holds the `undefined` entry. -/
structure NaNAnalysis where
  categories : List (Option String)
  reasons : List String
  isError : Bool
  confidence : String
deriving DecidableEq

/-- The scoring pipeline in the poisoned case: the level reason is
pushed with an `undefined` category, the keyword/pattern/modifier loops
still append their reasons and (string) categories — each string
category is distinct from the `undefined` entry, so the dedup check
behaves as among the strings — and the additions to the already-`NaN`
score are dropped. -/
def nanAnalyzeStrings (logLevel message : String) : NaNAnalysis :=
  let acc1 : ScoreAcc :=
    { score := 0, categories := [],
      reasons := ["Log level: " ++ jsToUpper logLevel] }
  let messageLower := jsToLower message
  let acc2 := applyKeywords messageLower acc1
  let acc3 := applyPatterns message acc2
  let mr := applyDampeners message (applyAmplifiers message (1, []))
  { categories := none :: acc3.categories.map some,
    reasons := acc3.reasons ++ mr.2,
    isError := false, confidence := "LOW" }

/-- Outcome of `analyzeLogForErrors`: a normal return carrying an
integer-scored `ErrorAnalysis`, a return whose `score` field was
poisoned to `NaN` by a prototype-chain level lookup, or a thrown
`TypeError`. -/
inductive ScorerRet where
  | ok : ErrorAnalysis → ScorerRet
  | nanScore : NaNAnalysis → ScorerRet
  | error : String → ScorerRet
deriving DecidableEq

/-- ragAnalyzer.js `analyzeLogForErrors`.  A falsy record returns the
zero-value analysis.  Otherwise the level and then the message field are
coerced to strings — JavaScript throws a `TypeError` when
`.toLowerCase()` is reached on a truthy non-string — then a lower-cased
trimmed level naming an `Object.prototype` property returns the
`NaN`-scored record, and otherwise the scoring pipeline of
`analyzeStrings` runs. -/
def analyzeLogForErrors (log : Option ScorerLog) : ScorerRet :=
  match log with
  | none => .ok emptyAnalysis
  | some l =>
    match asString (resolvedLevelV l) with
    | .error e => .error e
    | .ok levelRaw =>
      match asString (resolvedMessageV l) with
      | .error e => .error e
      | .ok message =>
          let logLevel := jsTrim (jsToLower levelRaw)
          if protoLevelKeys.contains logLevel then
            .nanScore (nanAnalyzeStrings logLevel message)
          else .ok (analyzeStrings levelRaw message)

/-!
Embedding of `extractKeyValuePairs` / `isNullOrErrorValue` of
ragAnalyzer.js.  The four global key/value regex shapes scan each message
and produce a stream of raw `(key, value)` capture pairs in match order;
the map-building logic below is what claims about the key/value map are
about, so it is embedded verbatim over that stream, which is taken as a
parameter.
-/

/-- ragAnalyzer.js `isNullOrErrorValue`: an empty value, or one whose
lower-cased trim equals — or starts with — one of the null/failure
indicator tokens. -/
def isNullOrErrorValue (value : String) : Bool :=
  if value = "" then true
  else
    let lowerValue := jsTrim (jsToLower value)
    [ "undefined", "null", "nil", "none", "n/a", "na", "empty", "blank",
      "\"\"", squote ++ squote, "[]", "\x7b\x7d", "<null>", "<undefined>", "<empty>",
      "<none>", "[null]", "[undefined]", "(null)", "(undefined)", "nan", "unknown",
      "not defined", "not set", "unset", "missing", "absent", "void",
      "failed", "failure", "error", "timeout", "unavailable" ].any
      (fun ind => lowerValue = ind || strStartsWith lowerValue ind)

/-- A stored entry of the key/value map: the retained value, whether it
is null/error-indicating, and how often the key has been seen. -/
structure KVEntry where
  value : String
  isInvalid : Bool
  count : Nat
deriving DecidableEq

/-- Replace the (first) entry stored under `key`, keeping its position —
`Map.set` on an existing key. -/
def kvReplace (m : List (String × KVEntry)) (key : String) (e : KVEntry) :
    List (String × KVEntry) :=
  match m with
  | [] => []
  | (k, old) :: rest =>
      if k = key then (k, e) :: rest else (k, old) :: kvReplace rest key e

/-- Stopword keys skipped by `extractKeyValuePairs`. -/
def kvStopwords : List String := ["the", "and", "for", "with"]

/-- Processing of one raw regex capture `(match[1], match[2])` by
`extractKeyValuePairs`: trim and lower-case the key, skip short and
stopword keys, then insert — or, when the stored value is invalid and the
new one valid, overwrite — the map entry. -/
def kvStep (m : List (String × KVEntry)) (rawKey rawValue : String) :
    List (String × KVEntry) :=
  let key := jsToLower (jsTrim rawKey)
  let value := jsTrim rawValue
  if key.length < 3 || kvStopwords.contains key then m
  else
    let isInvalidValue := isNullOrErrorValue value
    match m.lookup key with
    | none => m ++ [(key, { value := value, isInvalid := isInvalidValue, count := 1 })]
    | some existing =>
        let bumped := { existing with count := existing.count + 1 }
        if existing.isInvalid && !isInvalidValue then
          kvReplace m key { bumped with value := value, isInvalid := false }
        else
          kvReplace m key bumped

/-- ragAnalyzer.js `extractKeyValuePairs` over the stream of raw capture
pairs produced by the four key/value regex shapes across a log
sequence. -/
def extractKeyValuePairs (captures : List (String × String)) : List (String × KVEntry) :=
  captures.foldl (fun m kv => kvStep m kv.1 kv.2) []

/-!
Helper lemmas about the scoring pipeline.
-/

/-- Rounding is monotone. -/
theorem round_le_round_of_le {x y : ℚ} (h : x ≤ y) : round x ≤ round y := by
  rw [round_eq, round_eq]
  exact Int.floor_mono (by linarith)

/-- Rounding a non-negative rational is non-negative. -/
theorem round_nonneg_of_nonneg {x : ℚ} (h : 0 ≤ x) : 0 ≤ round x := by
  rw [round_eq]
  exact Int.le_floor.mpr (by push_cast; linarith)

/-- A modifier fold from any start equals the start times the fold from
one. -/
theorem foldl_mul_modifier (message : String) :
    ∀ (l : List ContextModifier) (a : ℚ),
      l.foldl (fun m c => if reTest true c.regex message then m * c.multiplier else m) a =
        a * modifierProduct message l := by
  intro l
  induction l with
  | nil => intro a; simp [modifierProduct]
  | cons c rest ih =>
      intro a
      simp only [modifierProduct, List.foldl_cons] at ih ⊢
      by_cases h : reTest true c.regex message = true
      · rw [if_pos h, if_pos h, ih (a * c.multiplier), ih (1 * c.multiplier)]
        ring
      · rw [if_neg h, if_neg h, ih a, ih 1]

/-- The multiplier component of a modifier loop is the start multiplier
times the product of the matching modifiers. -/
theorem foldl_modifierStep_fst (reason message : String) :
    ∀ (l : List ContextModifier) (mr : ℚ × List String),
      (l.foldl (modifierStep reason message) mr).1 = mr.1 * modifierProduct message l := by
  intro l
  induction l with
  | nil => intro mr; simp [modifierProduct]
  | cons c rest ih =>
      intro mr
      simp only [modifierProduct, List.foldl_cons] at ih ⊢
      by_cases h : reTest true c.regex message = true
      · simp only [modifierStep]
        rw [if_pos h, if_pos h, ih, foldl_mul_modifier message rest (1 * c.multiplier)]
        show mr.1 * c.multiplier * modifierProduct message rest = _
        ring
      · simp only [modifierStep]
        rw [if_neg h, if_neg h, ih, foldl_mul_modifier message rest 1]

/-- The amplifier product of a message. -/
def amplifierProduct (message : String) : ℚ :=
  modifierProduct message CONTEXT_MODIFIERS.amplifiers

/-- The multiplier accumulated by steps 4a and 4b. -/
theorem modifier_fst_eq (message : String) :
    (applyDampeners message (applyAmplifiers message (1, []))).1 =
      amplifierProduct message * dampenerProduct message := by
  unfold applyDampeners applyAmplifiers dampenerProduct amplifierProduct
  rw [foldl_modifierStep_fst, foldl_modifierStep_fst]
  ring

/-- A product of positive modifier multipliers is positive. -/
theorem modifierProduct_pos (message : String) :
    ∀ (l : List ContextModifier), (∀ c ∈ l, 0 < c.multiplier) →
      0 < modifierProduct message l := by
  intro l
  induction l with
  | nil => intro _; simp [modifierProduct]
  | cons c rest ih =>
      intro h
      simp only [modifierProduct, List.foldl_cons]
      rw [foldl_mul_modifier]
      have hc : 0 < c.multiplier := h c (List.mem_cons_self c rest)
      have hr : 0 < modifierProduct message rest :=
        ih (fun d hd => h d (List.mem_cons_of_mem c hd))
      by_cases hm : reTest true c.regex message = true
      · rw [if_pos hm]
        positivity
      · rw [if_neg hm]
        positivity

/-- A product of multipliers that are all at least one is at least one. -/
theorem one_le_modifierProduct (message : String) :
    ∀ (l : List ContextModifier), (∀ c ∈ l, 1 ≤ c.multiplier) →
      1 ≤ modifierProduct message l := by
  intro l
  induction l with
  | nil => intro _; simp [modifierProduct]
  | cons c rest ih =>
      intro h
      simp only [modifierProduct, List.foldl_cons]
      rw [foldl_mul_modifier]
      have hc : 1 ≤ c.multiplier := h c (List.mem_cons_self c rest)
      have hr : 1 ≤ modifierProduct message rest :=
        ih (fun d hd => h d (List.mem_cons_of_mem c hd))
      by_cases hm : reTest true c.regex message = true
      · rw [if_pos hm]
        nlinarith
      · rw [if_neg hm]
        nlinarith

/-- When no modifier of the list matches, the product is one. -/
theorem modifierProduct_eq_one (message : String) :
    ∀ (l : List ContextModifier), (∀ c ∈ l, reTest true c.regex message = false) →
      modifierProduct message l = 1 := by
  intro l
  induction l with
  | nil => intro _; simp [modifierProduct]
  | cons c rest ih =>
      intro h
      simp only [modifierProduct, List.foldl_cons, h c (List.mem_cons_self c rest)]
      simpa [modifierProduct] using ih (fun d hd => h d (List.mem_cons_of_mem c hd))

/-- Every amplifier multiplier of the catalog is at least one. -/
theorem amplifiers_one_le : ∀ c ∈ CONTEXT_MODIFIERS.amplifiers, (1 : ℚ) ≤ c.multiplier := by
  intro c hc
  simp only [CONTEXT_MODIFIERS, List.mem_cons, List.not_mem_nil, or_false] at hc
  rcases hc with rfl | rfl | rfl | rfl <;> norm_num

/-- Every dampener multiplier of the catalog is positive. -/
theorem dampeners_pos : ∀ c ∈ CONTEXT_MODIFIERS.dampeners, (0 : ℚ) < c.multiplier := by
  intro c hc
  simp only [CONTEXT_MODIFIERS, List.mem_cons, List.not_mem_nil, or_false] at hc
  rcases hc with rfl | rfl | rfl | rfl | rfl <;> norm_num

/-- The additive score accumulated by steps 1 to 3. -/
def baseScore (levelRaw message : String) : Nat :=
  (applyPatterns message (applyKeywords (jsToLower message)
    (applyLogLevel (jsTrim (jsToLower levelRaw))
      { score := 0, categories := [], reasons := [] }))).score

/-- The final score is the rounded product of the additive base score
with the amplifier and dampener products. -/
theorem analyzeStrings_score (lv m : String) :
    (analyzeStrings lv m).score =
      round ((baseScore lv m : ℚ) * (amplifierProduct m * dampenerProduct m)) := by
  simp only [analyzeStrings, baseScore]
  rw [modifier_fst_eq]

/-- Classification of the threshold if-chain. -/
theorem classification_of (z : ℤ) :
    ((if HIGH_CONFIDENCE_THRESHOLD ≤ z then "HIGH"
      else if ERROR_SCORE_THRESHOLD ≤ z then "MEDIUM" else "LOW") = "HIGH" ↔
        HIGH_CONFIDENCE_THRESHOLD ≤ z) ∧
    ((if HIGH_CONFIDENCE_THRESHOLD ≤ z then "HIGH"
      else if ERROR_SCORE_THRESHOLD ≤ z then "MEDIUM" else "LOW") = "MEDIUM" ↔
        (ERROR_SCORE_THRESHOLD ≤ z ∧ z < HIGH_CONFIDENCE_THRESHOLD)) ∧
    ((if HIGH_CONFIDENCE_THRESHOLD ≤ z then "HIGH"
      else if ERROR_SCORE_THRESHOLD ≤ z then "MEDIUM" else "LOW") = "LOW" ↔
        z < ERROR_SCORE_THRESHOLD) := by
  simp only [ERROR_SCORE_THRESHOLD, HIGH_CONFIDENCE_THRESHOLD]
  by_cases h50 : (50 : ℤ) ≤ z
  · rw [if_pos h50]
    refine ⟨?_, ?_, ?_⟩ <;> simp <;> omega
  · rw [if_neg h50]
    by_cases h25 : (25 : ℤ) ≤ z
    · rw [if_pos h25]
      refine ⟨?_, ?_, ?_⟩ <;> simp <;> omega
    · rw [if_neg h25]
      refine ⟨?_, ?_, ?_⟩ <;> simp <;> omega

/-- The classification fields of `analyzeStrings` agree with its score. -/
theorem analyzeStrings_classification (lv m : String) :
    ((analyzeStrings lv m).isError = true ↔
        ERROR_SCORE_THRESHOLD ≤ (analyzeStrings lv m).score) ∧
    ((analyzeStrings lv m).confidence = "HIGH" ↔
        HIGH_CONFIDENCE_THRESHOLD ≤ (analyzeStrings lv m).score) ∧
    ((analyzeStrings lv m).confidence = "MEDIUM" ↔
        (ERROR_SCORE_THRESHOLD ≤ (analyzeStrings lv m).score ∧
          (analyzeStrings lv m).score < HIGH_CONFIDENCE_THRESHOLD)) ∧
    ((analyzeStrings lv m).confidence = "LOW" ↔
        (analyzeStrings lv m).score < ERROR_SCORE_THRESHOLD) := by
  simp only [analyzeStrings]
  exact ⟨by simp, (classification_of _).1, (classification_of _).2.1, (classification_of _).2.2⟩

/-- Inversion for the scorer on a present record: a successful result is
`analyzeStrings` of the two coerced field strings. -/
theorem analyzeLogForErrors_ok_some (l : ScorerLog) (a : ErrorAnalysis)
    (h : analyzeLogForErrors (some l) = .ok a) :
    ∃ lv m, asString (resolvedLevelV l) = .ok lv ∧
      asString (resolvedMessageV l) = .ok m ∧
      protoLevelKeys.contains (jsTrim (jsToLower lv)) = false ∧
      a = analyzeStrings lv m := by
  simp only [analyzeLogForErrors] at h
  cases hlv : asString (resolvedLevelV l) with
  | error e => rw [hlv] at h; exact absurd h (by simp)
  | ok lv =>
      rw [hlv] at h
      cases hm : asString (resolvedMessageV l) with
      | error e => rw [hm] at h; exact absurd h (by simp)
      | ok m =>
          rw [hm] at h
          have h2 : (if protoLevelKeys.contains (jsTrim (jsToLower lv)) = true then
                ScorerRet.nanScore (nanAnalyzeStrings (jsTrim (jsToLower lv)) m)
              else ScorerRet.ok (analyzeStrings lv m)) = ScorerRet.ok a := h
          by_cases hp : protoLevelKeys.contains (jsTrim (jsToLower lv)) = true
          · rw [if_pos hp] at h2
            exact absurd h2 (by simp)
          · rw [if_neg hp] at h2
            exact ⟨lv, m, rfl, rfl, Bool.eq_false_iff.mpr hp, by simpa using h2.symm⟩

/-- C2 (amended): whenever `analyzeLogForErrors` returns a normal
`ErrorAnalysis` — the record's resolved level and message fields coerce
to strings and the lower-cased trimmed level is none of the
`Object.prototype` property names `constructor` / `__proto__` — the
score is a non-negative (rounded) integer.  The claim's "any shape"
fails twice: a truthy non-string message makes the source throw a
`TypeError`, and a level resolving to `constructor` or `__proto__` makes
`LOG_LEVEL_SEVERITY[logLevel]` find a truthy inherited `levelInfo` whose
`.score` is `undefined`, so `score += undefined` poisons the returned
score to `NaN`; see the counterexample. -/
theorem c2_score_nonneg (log : Option ScorerLog) (a : ErrorAnalysis)
    (h : analyzeLogForErrors log = .ok a) : 0 ≤ a.score := by
  match log with
  | none =>
      have : a = emptyAnalysis := by simpa [analyzeLogForErrors] using h.symm
      simp [this, emptyAnalysis]
  | some l =>
      obtain ⟨lv, m, _, _, _, rfl⟩ := analyzeLogForErrors_ok_some l a h
      rw [analyzeStrings_score]
      apply round_nonneg_of_nonneg
      have hamp : 0 < amplifierProduct m :=
        modifierProduct_pos m _ (fun c hc => lt_of_lt_of_le one_pos (amplifiers_one_le c hc))
      have hdamp : 0 < dampenerProduct m := modifierProduct_pos m _ dampeners_pos
      positivity

/-- C2 witness: a record with absent fields resolves both strings to `""`
and scores zero, which is non-negative. -/
theorem c2_witness :
    analyzeLogForErrors (some ⟨none, none, none⟩) = .ok (analyzeStrings "" "") ∧
      (0 : ℤ) ≤ (analyzeStrings "" "").score :=
  ⟨rfl, c2_score_nonneg (some ⟨none, none, none⟩) (analyzeStrings "" "") rfl⟩

/-- C2 counterexample: a record whose `message` is a (truthy) object
reaches `message.toLowerCase()` in the source and throws a `TypeError`;
and a record whose `level` is the string `"constructor"` finds
`Object.prototype.constructor` in the severity lookup, so the source
returns a record whose score is `NaN` — in neither case is a normal
analysis with a non-negative integer score returned. -/
theorem c2_counterexample :
    analyzeLogForErrors (some ⟨some (.obj []), none, none⟩) =
      .error "TypeError: not a string" ∧
    analyzeLogForErrors (some ⟨some (.str ""), some (.str "constructor"), none⟩) =
      .nanScore (nanAnalyzeStrings "constructor" "") ∧
    (∀ a : ErrorAnalysis,
      analyzeLogForErrors (some ⟨some (.str ""), some (.str "constructor"), none⟩) ≠
        .ok a) := by
  refine ⟨rfl, rfl, fun a h => ?_⟩
  rw [show analyzeLogForErrors (some ⟨some (.str ""), some (.str "constructor"), none⟩) =
      .nanScore (nanAnalyzeStrings "constructor" "") from rfl] at h
  exact ScorerRet.noConfusion h

/-- C3: for every record on which the scorer returns, `isError` holds iff
the rounded score is at least 25, confidence is HIGH iff the score is at
least 50, MEDIUM iff it is in `[25, 50)`, LOW iff it is below 25, and
consequently confidence LOW only occurs with `isError = false`. -/
theorem c3_confidence_thresholds (log : Option ScorerLog) (a : ErrorAnalysis)
    (h : analyzeLogForErrors log = .ok a) :
    (a.isError = true ↔ ERROR_SCORE_THRESHOLD ≤ a.score) ∧
    (a.confidence = "HIGH" ↔ HIGH_CONFIDENCE_THRESHOLD ≤ a.score) ∧
    (a.confidence = "MEDIUM" ↔
      (ERROR_SCORE_THRESHOLD ≤ a.score ∧ a.score < HIGH_CONFIDENCE_THRESHOLD)) ∧
    (a.confidence = "LOW" ↔ a.score < ERROR_SCORE_THRESHOLD) ∧
    (a.confidence = "LOW" → a.isError = false) := by
  have key : (a.isError = true ↔ ERROR_SCORE_THRESHOLD ≤ a.score) ∧
      (a.confidence = "HIGH" ↔ HIGH_CONFIDENCE_THRESHOLD ≤ a.score) ∧
      (a.confidence = "MEDIUM" ↔
        (ERROR_SCORE_THRESHOLD ≤ a.score ∧ a.score < HIGH_CONFIDENCE_THRESHOLD)) ∧
      (a.confidence = "LOW" ↔ a.score < ERROR_SCORE_THRESHOLD) := by
    match log with
    | none =>
        have : a = emptyAnalysis := by simpa [analyzeLogForErrors] using h.symm
        subst this
        refine ⟨?_, ?_, ?_, ?_⟩ <;>
          simp [emptyAnalysis, ERROR_SCORE_THRESHOLD, HIGH_CONFIDENCE_THRESHOLD]
    | some l =>
        obtain ⟨lv, m, _, _, _, rfl⟩ := analyzeLogForErrors_ok_some l a h
        exact analyzeStrings_classification lv m
  refine ⟨key.1, key.2.1, key.2.2.1, key.2.2.2, fun hlow => ?_⟩
  have hlt := key.2.2.2.mp hlow
  rcases Bool.eq_false_or_eq_true a.isError with hb | hb
  · exact absurd (key.1.mp hb) (by omega)
  · exact hb

/-- C3 witness: the empty-field record returns the zero analysis, with
`isError = false`, confidence LOW and score 0 below both thresholds. -/
theorem c3_witness :
    analyzeLogForErrors (some ⟨none, none, none⟩) = .ok (analyzeStrings "" "") ∧
      ((analyzeStrings "" "").confidence = "LOW" ↔
        (analyzeStrings "" "").score < ERROR_SCORE_THRESHOLD) :=
  ⟨rfl, (c3_confidence_thresholds (some ⟨none, none, none⟩) (analyzeStrings "" "")
    rfl).2.2.2.1⟩

/-- C4: a `null`/absent record yields the zero-value analysis — score 0,
not an error, confidence LOW, no categories, no reasons — and no
exception (the guard returns before any string coercion). -/
theorem c4_null_record :
    analyzeLogForErrors none = .ok emptyAnalysis ∧
      emptyAnalysis =
        { score := 0, categories := [], reasons := [], isError := false,
          confidence := "LOW" } :=
  ⟨rfl, rfl⟩

/-- A fold whose step never decreases the score field never decreases the
score. -/
theorem score_le_foldl {α : Type} (f : ScoreAcc → α → ScoreAcc)
    (hstep : ∀ acc x, acc.score ≤ (f acc x).score) :
    ∀ (l : List α) (acc : ScoreAcc), acc.score ≤ (l.foldl f acc).score := by
  intro l
  induction l with
  | nil => intro acc; simp
  | cons x rest ih =>
      intro acc
      exact le_trans (hstep acc x) (ih (f acc x))

/-- Keyword scanning only adds to the score. -/
theorem applyKeywords_score_le (m : String) (acc : ScoreAcc) :
    acc.score ≤ (applyKeywords m acc).score := by
  apply score_le_foldl
  intro a kw
  by_cases h : strIncludes m kw.1 = true
  · simp only [h, if_pos]
    omega
  · simp only [h, if_neg, not_false_iff]
    simp [h]

/-- Pattern matching only adds to the score. -/
theorem applyPatterns_score_le (m : String) (acc : ScoreAcc) :
    acc.score ≤ (applyPatterns m acc).score := by
  apply score_le_foldl
  intro a p
  by_cases h : reTest true p.regex m = true
  · simp [h]
  · simp [h]

/-- A record whose resolved level is `fatal` has base score at least
100. -/
theorem baseScore_fatal (lv m : String) (hfatal : jsTrim (jsToLower lv) = "fatal") :
    100 ≤ baseScore lv m := by
  unfold baseScore
  rw [hfatal]
  have h1 : (applyLogLevel "fatal" { score := 0, categories := [], reasons := [] }).score
      = 100 := by decide
  calc 100 = (applyLogLevel "fatal" { score := 0, categories := [], reasons := [] }).score :=
        h1.symm
    _ ≤ (applyKeywords (jsToLower m)
          (applyLogLevel "fatal" { score := 0, categories := [], reasons := [] })).score :=
        applyKeywords_score_le _ _
    _ ≤ _ := applyPatterns_score_le _ _

/-- C7 (amended): a record whose resolved level field is `"fatal"` (and
whose fields coerce to strings, so the scorer returns) scores at least
`round (100 × ∏ matching dampener multipliers)` — the source multiplies
*all* matching dampeners, so the claimed bound `100 × min multiplier`
fails when several dampeners match, see the counterexample — and is
classified HIGH confidence whenever no dampener regex matches. -/
theorem c7_fatal_score (l : ScorerLog) (lv m : String) (a : ErrorAnalysis)
    (hlv : asString (resolvedLevelV l) = .ok lv)
    (hfatal : jsTrim (jsToLower lv) = "fatal")
    (hm : asString (resolvedMessageV l) = .ok m)
    (h : analyzeLogForErrors (some l) = .ok a) :
    round ((100 : ℚ) * dampenerProduct m) ≤ a.score ∧
    ((∀ d ∈ CONTEXT_MODIFIERS.dampeners, reTest true d.regex m = false) →
      a.confidence = "HIGH") := by
  obtain ⟨lv', m', hlv', hm', _, rfl⟩ := analyzeLogForErrors_ok_some l a h
  rw [hlv] at hlv'
  rw [hm] at hm'
  obtain rfl : lv = lv' := by exact Except.ok.inj hlv'
  obtain rfl : m = m' := by exact Except.ok.inj hm'
  have hbase : 100 ≤ baseScore lv m := baseScore_fatal lv m hfatal
  have hbaseQ : (100 : ℚ) ≤ (baseScore lv m : ℚ) := by exact_mod_cast hbase
  have hbase0 : (0 : ℚ) ≤ (baseScore lv m : ℚ) := by positivity
  have hamp : (1 : ℚ) ≤ amplifierProduct m :=
    one_le_modifierProduct m _ amplifiers_one_le
  have hdamp : (0 : ℚ) < dampenerProduct m := modifierProduct_pos m _ dampeners_pos
  have hmain : round ((100 : ℚ) * dampenerProduct m) ≤ (analyzeStrings lv m).score := by
    rw [analyzeStrings_score]
    apply round_le_round_of_le
    have h100 : (100 : ℚ) * 1 ≤ (baseScore lv m : ℚ) * amplifierProduct m :=
      mul_le_mul hbaseQ hamp (by norm_num) hbase0
    calc (100 : ℚ) * dampenerProduct m
        = ((100 : ℚ) * 1) * dampenerProduct m := by ring
      _ ≤ ((baseScore lv m : ℚ) * amplifierProduct m) * dampenerProduct m :=
          mul_le_mul_of_nonneg_right h100 (le_of_lt hdamp)
      _ = (baseScore lv m : ℚ) * (amplifierProduct m * dampenerProduct m) := by ring
  refine ⟨hmain, fun hnone => ?_⟩
  have hd1 : dampenerProduct m = 1 := modifierProduct_eq_one m _ hnone
  have h100le : (100 : ℤ) ≤ (analyzeStrings lv m).score := by
    have := hmain
    rw [hd1] at this
    simpa using this
  exact (analyzeStrings_classification lv m).2.1.mpr
    (by simp only [HIGH_CONFIDENCE_THRESHOLD]; omega)

/-- C7 witness: a fatal-level record with empty message matches no
dampener; the bound gives score ≥ 100 and confidence HIGH. -/
theorem c7_witness :
    round ((100 : ℚ) * dampenerProduct "") ≤ (analyzeStrings "fatal" "").score ∧
      (analyzeStrings "fatal" "").confidence = "HIGH" := by
  have h := c7_fatal_score ⟨some (.str ""), some (.str "fatal"), none⟩ "fatal" ""
    (analyzeStrings "fatal" "") rfl (by decide) rfl rfl
  exact ⟨h.1, h.2 (by decide)⟩

set_option maxRecDepth 4000 in
/-- C7 counterexample: level `"fatal"`, message `"test debug"`.  Two
dampeners match (multipliers 0.5 and 0.7); the source multiplies both, so
the score is `round (100 × 0.35) = 35`, below the claimed bound
`100 × 0.5 = 50`. -/
theorem c7_counterexample :
    analyzeLogForErrors (some ⟨some (.str "test debug"), some (.str "fatal"), none⟩) =
      .ok (analyzeStrings "fatal" "test debug") ∧
    (analyzeStrings "fatal" "test debug").score = 35 ∧
    (CONTEXT_MODIFIERS.dampeners.filter
        (fun d => reTest true d.regex "test debug")).map ContextModifier.multiplier =
      [(1 : ℚ)/2, (7 : ℚ)/10] ∧
    ¬((100 : ℚ) * ((1 : ℚ)/2) ≤ ((analyzeStrings "fatal" "test debug").score : ℚ)) := by
  have hscore : (analyzeStrings "fatal" "test debug").score = 35 := by
    rw [analyzeStrings_score]
    have hb : baseScore "fatal" "test debug" = 100 := by decide
    have hamp : amplifierProduct "test debug" = 1 := rfl
    have hdamp : dampenerProduct "test debug" = 1 * ((1 : ℚ)/2) * ((7 : ℚ)/10) := rfl
    rw [hb, hamp, hdamp]
    have : ((100 : ℕ) : ℚ) * (1 * (1 * ((1 : ℚ)/2) * ((7 : ℚ)/10))) = ((35 : ℕ) : ℚ) := by
      norm_num
    rw [this, round_natCast]
    norm_num
  refine ⟨rfl, hscore, rfl, ?_⟩
  rw [hscore]
  norm_num

/-!
Helper lemmas about the index loop of `compareWorkflowLogs`.
-/

/-- Characterization of the loop fold: the one-sided counters and lists
are determined by truthiness of the indexed entries alone (independent of
the pairwise comparator), and each index feeds exactly one counter. -/
theorem cwl_foldl_spec (cmp : JValue → JValue → ComparisonResult)
    (ignoreFields : List String) (ignorePatterns : List IgnorePattern)
    (blueLogs greenLogs : List JValue) :
    ∀ (l : List Nat) (rep : WorkflowReport),
      ((l.foldl (cwlStep cmp ignoreFields ignorePatterns blueLogs greenLogs)
          rep).summary.greenOnlyCount =
        rep.summary.greenOnlyCount + l.countP (fun i => !jsTruthyOpt blueLogs[i]?)) ∧
      ((l.foldl (cwlStep cmp ignoreFields ignorePatterns blueLogs greenLogs)
          rep).summary.blueOnlyCount =
        rep.summary.blueOnlyCount +
          l.countP (fun i => jsTruthyOpt blueLogs[i]? && !jsTruthyOpt greenLogs[i]?)) ∧
      ((l.foldl (cwlStep cmp ignoreFields ignorePatterns blueLogs greenLogs)
            rep).summary.matchedCount +
          (l.foldl (cwlStep cmp ignoreFields ignorePatterns blueLogs greenLogs)
            rep).summary.mismatchedCount =
        rep.summary.matchedCount + rep.summary.mismatchedCount +
          l.countP (fun i => jsTruthyOpt blueLogs[i]? && jsTruthyOpt greenLogs[i]?)) ∧
      ((l.foldl (cwlStep cmp ignoreFields ignorePatterns blueLogs greenLogs)
          rep).greenOnlyLogs =
        rep.greenOnlyLogs ++ l.filterMap (fun i =>
          if !jsTruthyOpt blueLogs[i]? then some (i, greenLogs[i]?) else none)) ∧
      ((l.foldl (cwlStep cmp ignoreFields ignorePatterns blueLogs greenLogs)
          rep).blueOnlyLogs =
        rep.blueOnlyLogs ++ l.filterMap (fun i =>
          if jsTruthyOpt blueLogs[i]? && !jsTruthyOpt greenLogs[i]?
          then some (i, blueLogs[i]?) else none)) := by
  intro l
  induction l with
  | nil => intro rep; simp
  | cons i rest ih =>
      intro rep
      simp only [List.foldl_cons, List.countP_cons, List.filterMap_cons]
      obtain ⟨g1, g2, g3, g4, g5⟩ :=
        ih (cwlStep cmp ignoreFields ignorePatterns blueLogs greenLogs rep i)
      by_cases hb : jsTruthyOpt blueLogs[i]? = true
      · by_cases hg : jsTruthyOpt greenLogs[i]? = true
        · by_cases hd : (cmp (blueLogs[i]?.getD .null) (greenLogs[i]?.getD .null)).hasDifferences
              = true
          · have hstep : cwlStep cmp ignoreFields ignorePatterns blueLogs greenLogs rep i =
                { rep with
                  logDifferences := rep.logDifferences ++
                    [{ index := i,
                       blueLog := removeIgnoredFields ignoreFields ignorePatterns
                         (blueLogs[i]?.getD .null) "",
                       greenLog := removeIgnoredFields ignoreFields ignorePatterns
                         (greenLogs[i]?.getD .null) "",
                       differences := (cmp (blueLogs[i]?.getD .null)
                         (greenLogs[i]?.getD .null)).differences }],
                  summary := { rep.summary with
                    mismatchedCount := rep.summary.mismatchedCount + 1 } } := by
              simp [cwlStep, hb, hg, hd]
            rw [hstep] at g1 g2 g3 g4 g5
            refine ⟨?_, ?_, ?_, ?_, ?_⟩ <;>
              simp only [hstep, g1, g2, g3, g4, g5] <;> (try simp [hb, hg]) <;> (try omega)
          · have hstep : cwlStep cmp ignoreFields ignorePatterns blueLogs greenLogs rep i =
                { rep with
                  summary := { rep.summary with
                    matchedCount := rep.summary.matchedCount + 1 } } := by
              simp [cwlStep, hb, hg, hd]
            rw [hstep] at g1 g2 g3 g4 g5
            refine ⟨?_, ?_, ?_, ?_, ?_⟩ <;>
              simp only [hstep, g1, g2, g3, g4, g5] <;> (try simp [hb, hg]) <;> (try omega)
        · have hstep : cwlStep cmp ignoreFields ignorePatterns blueLogs greenLogs rep i =
              { rep with
                blueOnlyLogs := rep.blueOnlyLogs ++ [(i, blueLogs[i]?)],
                summary := { rep.summary with
                  blueOnlyCount := rep.summary.blueOnlyCount + 1 } } := by
            simp [cwlStep, hb, hg]
          rw [hstep] at g1 g2 g3 g4 g5
          refine ⟨?_, ?_, ?_, ?_, ?_⟩ <;>
            simp only [hstep, g1, g2, g3, g4, g5] <;> (try simp [hb, hg]) <;> (try omega)
      · have hstep : cwlStep cmp ignoreFields ignorePatterns blueLogs greenLogs rep i =
            { rep with
              greenOnlyLogs := rep.greenOnlyLogs ++ [(i, greenLogs[i]?)],
              summary := { rep.summary with
                greenOnlyCount := rep.summary.greenOnlyCount + 1 } } := by
          simp [cwlStep, hb]
        rw [hstep] at g1 g2 g3 g4 g5
        refine ⟨?_, ?_, ?_, ?_, ?_⟩ <;>
          simp only [hstep, g1, g2, g3, g4, g5] <;> (try simp [hb]) <;> (try omega)

/-- The three branch predicates of the loop partition every index. -/
theorem countP_truthy_partition (blueLogs greenLogs : List JValue) :
    ∀ l : List Nat,
      l.countP (fun i => !jsTruthyOpt blueLogs[i]?) +
        l.countP (fun i => jsTruthyOpt blueLogs[i]? && !jsTruthyOpt greenLogs[i]?) +
        l.countP (fun i => jsTruthyOpt blueLogs[i]? && jsTruthyOpt greenLogs[i]?) =
      l.length := by
  intro l
  induction l with
  | nil => simp
  | cons i rest ih =>
      simp only [List.countP_cons, List.length_cons]
      cases hb : jsTruthyOpt blueLogs[i]? <;> cases hg : jsTruthyOpt greenLogs[i]? <;>
        simp <;> omega

/-- Counting the indices of `range n` at or above `m`. -/
theorem countP_range_ge (m : Nat) : ∀ n, (List.range n).countP (fun i => decide (m ≤ i)) =
    n - m := by
  intro n
  induction n with
  | zero => simp
  | succ n ih =>
      rw [List.range_succ, List.countP_append, ih]
      by_cases h : m ≤ n
      · simp [h]
        omega
      · simp [h]
        omega

/-- Counting the indices of `range n` in the window `[lo, hi)`. -/
theorem countP_range_window (lo hi : Nat) :
    ∀ n, (List.range n).countP (fun i => decide (i < hi) && decide (lo ≤ i)) =
      min hi n - lo := by
  intro n
  induction n with
  | zero => simp
  | succ n ih =>
      rw [List.range_succ, List.countP_append, ih]
      by_cases h1 : n < hi
      · by_cases h2 : lo ≤ n
        · simp [h1, h2]
          omega
        · simp [h1, h2]
          omega
      · simp [h1]
        omega

/-- Pointwise-equal predicates count the same. -/
theorem countP_congr_list {α : Type} (p q : α → Bool) :
    ∀ l : List α, (∀ a ∈ l, p a = q a) → l.countP p = l.countP q := by
  intro l
  induction l with
  | nil => intro _; simp
  | cons a rest ih =>
      intro h
      simp only [List.countP_cons, h a (List.mem_cons_self a rest),
        ih (fun b hb => h b (List.mem_cons_of_mem a hb))]

/-- Truthiness of an indexed entry of an all-truthy list is exactly being
in bounds. -/
theorem jsTruthyOpt_getElem_of_truthy (logs : List JValue)
    (htruthy : ∀ v ∈ logs, jsTruthy v = true) (i : Nat) :
    jsTruthyOpt logs[i]? = decide (i < logs.length) := by
  by_cases h : i < logs.length
  · rw [List.getElem?_eq_getElem h]
    simp [jsTruthyOpt, htruthy logs[i] (logs.getElem_mem h), h]
  · rw [List.getElem?_eq_none (by omega)]
    simp [jsTruthyOpt, h]

/-- C10: in the index loop, a falsy blue entry at an index below
`max(len(blue), len(green))` makes the pair green-only — whatever the
green entry is, including when it is also falsy — and otherwise a falsy
green entry makes it blue-only; these one-sided counters and lists are
the same for every pairwise comparator `cmp`, so one-sided pairs are
never deep-compared (and `compareWorkflowLogs` is the loop instantiated
with `compareLogEntries`). -/
theorem c10_falsy_one_sided (cmp : JValue → JValue → ComparisonResult)
    (blueLogs greenLogs : List JValue) (ignoreFields : List String)
    (ignorePatterns : List IgnorePattern) :
    ((compareWorkflowLogsWith cmp blueLogs greenLogs ignoreFields
        ignorePatterns).summary.greenOnlyCount =
      (List.range (max blueLogs.length greenLogs.length)).countP
        (fun i => !jsTruthyOpt blueLogs[i]?)) ∧
    ((compareWorkflowLogsWith cmp blueLogs greenLogs ignoreFields
        ignorePatterns).summary.blueOnlyCount =
      (List.range (max blueLogs.length greenLogs.length)).countP
        (fun i => jsTruthyOpt blueLogs[i]? && !jsTruthyOpt greenLogs[i]?)) ∧
    ((compareWorkflowLogsWith cmp blueLogs greenLogs ignoreFields
        ignorePatterns).greenOnlyLogs =
      (List.range (max blueLogs.length greenLogs.length)).filterMap
        (fun i => if !jsTruthyOpt blueLogs[i]? then some (i, greenLogs[i]?) else none)) ∧
    ((compareWorkflowLogsWith cmp blueLogs greenLogs ignoreFields
        ignorePatterns).blueOnlyLogs =
      (List.range (max blueLogs.length greenLogs.length)).filterMap
        (fun i => if jsTruthyOpt blueLogs[i]? && !jsTruthyOpt greenLogs[i]?
          then some (i, blueLogs[i]?) else none)) ∧
    compareWorkflowLogs blueLogs greenLogs ignoreFields ignorePatterns =
      compareWorkflowLogsWith
        (fun blueLog greenLog =>
          compareLogEntries blueLog greenLog ignoreFields ignorePatterns)
        blueLogs greenLogs ignoreFields ignorePatterns := by
  obtain ⟨g1, g2, g3, g4, g5⟩ := cwl_foldl_spec cmp ignoreFields ignorePatterns
    blueLogs greenLogs (List.range (max blueLogs.length greenLogs.length))
    { summary :=
        { blueLogCount := blueLogs.length, greenLogCount := greenLogs.length,
          matchedCount := 0, mismatchedCount := 0, blueOnlyCount := 0, greenOnlyCount := 0 },
      countMismatch := blueLogs.length ≠ greenLogs.length,
      logDifferences := [], blueOnlyLogs := [], greenOnlyLogs := [],
      ignoredFields := ignoreFields, ignoredPatterns := ignorePatterns }
  simp only [compareWorkflowLogsWith]
  refine ⟨?_, ?_, ?_, ?_, rfl⟩
  · rw [g1]
    simp
  · rw [g2]
    simp
  · rw [g4]
    simp
  · rw [g5]
    simp

/-- C1 (amended): the four counters of `compareWorkflowLogs` always sum
to `max(len(blue), len(green))`; and, provided every entry of both
sequences is truthy (a falsy in-sequence entry instead feeds the
one-sided counters, see the counterexample), `blueOnlyCount` and
`greenOnlyCount` are the positive parts of the length differences, so
their sum is the absolute length difference.  Natural-number subtraction
`a - b` is `max 0 (a - b)`. -/
theorem c1_report_counters (blueLogs greenLogs : List JValue)
    (ignoreFields : List String) (ignorePatterns : List IgnorePattern) :
    ((compareWorkflowLogs blueLogs greenLogs ignoreFields
          ignorePatterns).summary.matchedCount +
        (compareWorkflowLogs blueLogs greenLogs ignoreFields
          ignorePatterns).summary.mismatchedCount +
        (compareWorkflowLogs blueLogs greenLogs ignoreFields
          ignorePatterns).summary.blueOnlyCount +
        (compareWorkflowLogs blueLogs greenLogs ignoreFields
          ignorePatterns).summary.greenOnlyCount =
      max blueLogs.length greenLogs.length) ∧
    ((∀ v ∈ blueLogs, jsTruthy v = true) → (∀ v ∈ greenLogs, jsTruthy v = true) →
      ((compareWorkflowLogs blueLogs greenLogs ignoreFields
           ignorePatterns).summary.blueOnlyCount =
         blueLogs.length - greenLogs.length) ∧
      ((compareWorkflowLogs blueLogs greenLogs ignoreFields
           ignorePatterns).summary.greenOnlyCount =
         greenLogs.length - blueLogs.length) ∧
      ((compareWorkflowLogs blueLogs greenLogs ignoreFields
            ignorePatterns).summary.blueOnlyCount +
          (compareWorkflowLogs blueLogs greenLogs ignoreFields
            ignorePatterns).summary.greenOnlyCount =
        max blueLogs.length greenLogs.length - min blueLogs.length greenLogs.length)) := by
  obtain ⟨g1, g2, g3, g4, g5⟩ := cwl_foldl_spec
    (fun blueLog greenLog => compareLogEntries blueLog greenLog ignoreFields ignorePatterns)
    ignoreFields ignorePatterns blueLogs greenLogs
    (List.range (max blueLogs.length greenLogs.length))
    { summary :=
        { blueLogCount := blueLogs.length, greenLogCount := greenLogs.length,
          matchedCount := 0, mismatchedCount := 0, blueOnlyCount := 0, greenOnlyCount := 0 },
      countMismatch := blueLogs.length ≠ greenLogs.length,
      logDifferences := [], blueOnlyLogs := [], greenOnlyLogs := [],
      ignoredFields := ignoreFields, ignoredPatterns := ignorePatterns }
  have hpart := countP_truthy_partition blueLogs greenLogs
    (List.range (max blueLogs.length greenLogs.length))
  have hlen := List.length_range (max blueLogs.length greenLogs.length)
  constructor
  · simp only [compareWorkflowLogs, compareWorkflowLogsWith] at g1 g2 g3 ⊢
    omega
  · intro htb htg
    have hcong1 : (List.range (max blueLogs.length greenLogs.length)).countP
        (fun i => !jsTruthyOpt blueLogs[i]?) =
        (List.range (max blueLogs.length greenLogs.length)).countP
          (fun i => decide (blueLogs.length ≤ i)) := by
      apply countP_congr_list
      intro a _
      rw [jsTruthyOpt_getElem_of_truthy blueLogs htb]
      by_cases h : a < blueLogs.length <;> simp [h] <;> omega
    have hcong2 : (List.range (max blueLogs.length greenLogs.length)).countP
        (fun i => jsTruthyOpt blueLogs[i]? && !jsTruthyOpt greenLogs[i]?) =
        (List.range (max blueLogs.length greenLogs.length)).countP
          (fun i => decide (i < blueLogs.length) && decide (greenLogs.length ≤ i)) := by
      apply countP_congr_list
      intro a _
      rw [jsTruthyOpt_getElem_of_truthy blueLogs htb,
        jsTruthyOpt_getElem_of_truthy greenLogs htg]
      by_cases h1 : a < blueLogs.length <;> by_cases h2 : a < greenLogs.length <;>
        simp [h1, h2] <;> omega
    have hc1 := countP_range_ge blueLogs.length (max blueLogs.length greenLogs.length)
    have hc2 := countP_range_window greenLogs.length blueLogs.length
      (max blueLogs.length greenLogs.length)
    simp only [compareWorkflowLogs, compareWorkflowLogsWith] at g1 g2 ⊢
    rw [g1, g2, hcong1, hcong2, hc1, hc2]
    refine ⟨by simp; try omega, by simp; try omega, by simp; try omega⟩

/-- C1 counterexample: with `blue = [null]` and `green = [null]` — equal
lengths, so the claim demands both one-sided counters be 0 — the loop
sees a falsy blue entry and counts the pair green-only. -/
theorem c1_counterexample :
    (compareWorkflowLogs [JValue.null] [JValue.null] [] []).summary.greenOnlyCount = 1 ∧
    (compareWorkflowLogs [JValue.null] [JValue.null] [] []).summary.blueOnlyCount = 0 ∧
    max ([JValue.null].length) ([JValue.null].length) -
        min ([JValue.null].length) ([JValue.null].length) = 0 ∧
    (1 : Nat) ≠ 0 := by
  refine ⟨by decide, by decide, by decide, by decide⟩

/-- C1 witness: one truthy blue record and an empty green sequence. -/
theorem c1_witness :
    (compareWorkflowLogs [JValue.obj [("a", JValue.num 1)]] [] [] []).summary.blueOnlyCount
        = 1 ∧
    (compareWorkflowLogs [JValue.obj [("a", JValue.num 1)]] [] [] []).summary.greenOnlyCount
        = 0 := by
  have h := (c1_report_counters [JValue.obj [("a", JValue.num 1)]] [] [] []).2
    (by decide) (by decide)
  exact ⟨by simpa using h.1, by simpa using h.2.1⟩

/-!
Helper lemmas for the field-exclusion claims.
-/

/-- Any JavaScript value has positive size. -/
theorem one_le_sizeOf_jvalue (v : JValue) : 1 ≤ sizeOf v := by
  cases v <;> simp <;> omega

/-- A mapping entry's value is smaller than the mapping. -/
theorem sizeOf_lt_of_mem_obj {k : String} {v : JValue} :
    ∀ {kvs : List (String × JValue)}, (k, v) ∈ kvs → sizeOf v < sizeOf (JValue.obj kvs) := by
  intro kvs
  induction kvs with
  | nil => intro h; cases h
  | cons kv rest ih =>
      intro h
      rcases List.mem_cons.mp h with h1 | h2
      · subst h1
        simp
        omega
      · have := ih h2
        simp at this ⊢
        omega

/-- A successful association-list lookup is a membership. -/
theorem mem_of_lookup_eq_some {α : Type} [BEq α] [LawfulBEq α] {k : α} {β : Type}
    {v : β} : ∀ {l : List (α × β)}, l.lookup k = some v → (k, v) ∈ l := by
  intro l
  induction l with
  | nil => intro h; simp [List.lookup] at h
  | cons kv rest ih =>
      obtain ⟨k0, v0⟩ := kv
      intro h
      rw [List.lookup] at h
      cases he : k == k0 with
      | true =>
          rw [he] at h
          obtain rfl : v0 = v := by simpa using h
          obtain rfl : k = k0 := eq_of_beq he
          exact List.mem_cons_self _ _
      | false =>
          rw [he] at h
          exact List.mem_cons_of_mem _ (ih h)

/-- All keys of the filtered record are clean, recursively. -/
inductive KeysOk (F : List String) (R : List IgnorePattern) : String → JValue → Prop where
  | obj : ∀ (P : String) (kvs : List (String × JValue)),
      (∀ k v, (k, v) ∈ kvs → shouldIgnoreField (joinPath P k) F R = false) →
      (∀ k v, (k, v) ∈ kvs → KeysOk F R (joinPath P k) v) →
      KeysOk F R P (.obj kvs)
  | notObj : ∀ (P : String) (v : JValue), (∀ kvs, v ≠ .obj kvs) → KeysOk F R P v

/-- Membership characterization of the entry filter: an entry survives
with key `k` exactly when `k`'s full path is not ignored and the entry's
value is the recursively filtered original value. -/
theorem mem_filterObjEntries (F : List String) (R : List IgnorePattern) (k : String)
    (w : JValue) :
    ∀ (kvs : List (String × JValue)) (P : String),
      (k, w) ∈ filterObjEntries F R kvs P ↔
        (shouldIgnoreField (joinPath P k) F R = false ∧ k ≠ "__proto__" ∧
          ∃ v, (k, v) ∈ kvs ∧ w = removeIgnoredFields F R v (joinPath P k)) := by
  intro kvs
  induction kvs with
  | nil => intro P; simp [filterObjEntries]
  | cons kv rest ih =>
      intro P
      obtain ⟨k0, v0⟩ := kv
      by_cases hig : shouldIgnoreField (joinPath P k0) F R = true
      · rw [show filterObjEntries F R ((k0, v0) :: rest) P =
            filterObjEntries F R rest P by simp [filterObjEntries, hig]]
        rw [ih P]
        constructor
        · rintro ⟨h1, hp, v, hv, rfl⟩
          exact ⟨h1, hp, v, List.mem_cons_of_mem _ hv, rfl⟩
        · rintro ⟨h1, hp, v, hv, rfl⟩
          rcases List.mem_cons.mp hv with h2 | h2
          · have hk : k = k0 := congrArg Prod.fst h2
            rw [hk, hig] at h1
            cases h1
          · exact ⟨h1, hp, v, h2, rfl⟩
      · replace hig : shouldIgnoreField (joinPath P k0) F R = false :=
          Bool.eq_false_iff.mpr hig
        by_cases hp0 : k0 = "__proto__"
        · rw [show filterObjEntries F R ((k0, v0) :: rest) P =
              filterObjEntries F R rest P by simp [filterObjEntries, hig, hp0]]
          rw [ih P]
          constructor
          · rintro ⟨h1, hp, v, hv, rfl⟩
            exact ⟨h1, hp, v, List.mem_cons_of_mem _ hv, rfl⟩
          · rintro ⟨h1, hp, v, hv, rfl⟩
            rcases List.mem_cons.mp hv with h2 | h2
            · have hk : k = k0 := congrArg Prod.fst h2
              rw [hk] at hp
              exact absurd hp0 hp
            · exact ⟨h1, hp, v, h2, rfl⟩
        · rw [show filterObjEntries F R ((k0, v0) :: rest) P =
              (k0, removeIgnoredFields F R v0 (joinPath P k0)) :: filterObjEntries F R rest P
            by simp [filterObjEntries, hig, hp0]]
          rw [List.mem_cons, ih P]
          constructor
          · rintro (h1 | ⟨h1, hp, v, hv, rfl⟩)
            · have hk : k = k0 := congrArg Prod.fst h1
              have hw : w = removeIgnoredFields F R v0 (joinPath P k0) :=
                congrArg Prod.snd h1
              subst hk
              exact ⟨hig, hp0, v0, List.mem_cons_self _ _, hw⟩
            · exact ⟨h1, hp, v, List.mem_cons_of_mem _ hv, rfl⟩
          · rintro ⟨h1, hp, v, hv, rfl⟩
            rcases List.mem_cons.mp hv with h2 | h2
            · have hk : k = k0 := congrArg Prod.fst h2
              have hv2 : v = v0 := congrArg Prod.snd h2
              subst hk
              subst hv2
              exact Or.inl rfl
            · exact Or.inr ⟨h1, hp, v, h2, rfl⟩

/-- The exclusion filter produces a record all of whose keys (and nested
keys) sit at non-ignored paths. -/
theorem keysOk_removeIgnoredFields (F : List String) (R : List IgnorePattern) :
    ∀ (n : Nat) (v : JValue), sizeOf v ≤ n →
      ∀ P, KeysOk F R P (removeIgnoredFields F R v P) := by
  intro n
  induction n with
  | zero =>
      intro v hv
      exact absurd hv (by have := one_le_sizeOf_jvalue v; omega)
  | succ n ih =>
      intro v hv P
      match v with
      | .obj kvs =>
          rw [show removeIgnoredFields F R (.obj kvs) P =
              .obj (filterObjEntries F R kvs P) from rfl]
          refine KeysOk.obj P _ (fun k w hmem => ?_) (fun k w hmem => ?_)
          · exact ((mem_filterObjEntries F R k w kvs P).mp hmem).1
          · obtain ⟨hclean, hpr, v', hv', rfl⟩ := (mem_filterObjEntries F R k w kvs P).mp hmem
            have hsz : sizeOf v' < sizeOf (JValue.obj kvs) := sizeOf_lt_of_mem_obj hv'
            exact ih v' (by omega) _
      | .arr xs => exact KeysOk.notObj _ _ (by intro kvs h; cases h)
      | .null => exact KeysOk.notObj _ _ (by intro kvs h; cases h)
      | .str s => exact KeysOk.notObj _ _ (by intro kvs h; cases h)
      | .num m => exact KeysOk.notObj _ _ (by intro kvs h; cases h)
      | .bool b => exact KeysOk.notObj _ _ (by intro kvs h; cases h)

/-- Every prefix of a difference path (as a key list below parent path
`P`) sits at a non-ignored full path. -/
def pathOk (F : List String) (R : List IgnorePattern) : String → List String → Bool
  | _, [] => true
  | P, k :: rest =>
      !shouldIgnoreField (joinPath P k) F R && pathOk F R (joinPath P k) rest

/-- Differences produced by the catch-all (scalar / mismatched-shape)
branch of `diffValue` carry the empty path. -/
theorem pathOk_default (F : List String) (R : List IgnorePattern) (P : String)
    (b g : JValue) (d : DiffEntry)
    (hd : d ∈ diffValue b g)
    (hdv : diffValue b g = (if deq b g then ([] : List DiffEntry)
               else [{ kind := .E, path := [], blueValue := some b, greenValue := some g,
                       index := none }])) :
    pathOk F R P d.path = true := by
  rw [hdv] at hd
  split at hd
  · simp at hd
  · simp at hd
    subst hd
    rfl

/-- Differences produced by the array branch of `diffValue` carry the
empty path. -/
theorem pathOk_arr (F : List String) (R : List IgnorePattern) (P : String)
    (xs ys : List JValue) (d : DiffEntry)
    (hd : d ∈ diffValue (.arr xs) (.arr ys))
    (hdv : diffValue (.arr xs) (.arr ys) = arrayDiffs xs ys) :
    pathOk F R P d.path = true := by
  rw [hdv, arrayDiffs] at hd
  obtain ⟨i, hi, hsome⟩ := List.mem_filterMap.mp hd
  split at hsome
  · cases hsome
  · injection hsome with h
    subst h
    rfl

/-- Walking the blue entries preserves path cleanliness: the inner
recursion hypothesis is passed in explicitly. -/
theorem diffObjEntries_path_ok (F : List String) (R : List IgnorePattern) (P : String)
    (gs : List (String × JValue)) :
    ∀ (bs : List (String × JValue)),
      (∀ k v, (k, v) ∈ bs → shouldIgnoreField (joinPath P k) F R = false) →
      (∀ k bv gv, (k, bv) ∈ bs → gs.lookup k = some gv →
        ∀ d ∈ diffValue bv gv, pathOk F R (joinPath P k) d.path = true) →
      ∀ d ∈ diffObjEntries bs gs, pathOk F R P d.path = true := by
  intro bs
  induction bs with
  | nil => intro _ _ d hd; simp [diffObjEntries] at hd
  | cons kv rest ih =>
      obtain ⟨k, bv⟩ := kv
      intro hclean hrec d hd
      rw [diffObjEntries] at hd
      rcases List.mem_append.mp hd with h | h
      · cases hlk : gs.lookup k with
        | none =>
            rw [hlk] at h
            simp at h
            subst h
            simp [pathOk, hclean k bv (List.mem_cons_self _ _)]
        | some gv =>
            rw [hlk] at h
            obtain ⟨d0, hd0, rfl⟩ := List.mem_map.mp h
            have hrec0 := hrec k bv gv (List.mem_cons_self _ _) hlk d0 hd0
            simp [DiffEntry.underKey, pathOk, hclean k bv (List.mem_cons_self _ _), hrec0]
      · exact ih (fun k v hm => hclean k v (List.mem_cons_of_mem _ hm))
          (fun k bv gv hm => hrec k bv gv (List.mem_cons_of_mem _ hm)) d h

/-- The structural diff of two clean-keyed values never mentions an
ignored path: every prefix of every difference path is non-ignored. -/
theorem diff_path_ok (F : List String) (R : List IgnorePattern) :
    ∀ (n : Nat) (b : JValue), sizeOf b ≤ n → ∀ (g : JValue) (P : String),
      KeysOk F R P b → KeysOk F R P g →
      ∀ d ∈ diffValue b g, pathOk F R P d.path = true := by
  intro n
  induction n with
  | zero =>
      intro b hb
      exact absurd hb (by have := one_le_sizeOf_jvalue b; omega)
  | succ n ih =>
      intro b hb g P hkb hkg d hd
      cases b with
      | obj bs =>
          cases g with
          | obj gs =>
              rcases hkb with ⟨_, _, hb1, hb2⟩ | ⟨_, _, hne⟩
              · rcases hkg with ⟨_, _, hg1, hg2⟩ | ⟨_, _, hne⟩
                · rw [show diffValue (.obj bs) (.obj gs) =
                      diffObjEntries bs gs ++ gs.filterMap (fun kv =>
                        if (bs.lookup kv.1).isSome then none
                        else some { kind := .N, path := [kv.1], blueValue := none,
                                    greenValue := some kv.2, index := none }) from rfl] at hd
                  rcases List.mem_append.mp hd with h | h
                  · refine diffObjEntries_path_ok F R P gs bs hb1 ?_ d h
                    intro k bv gv hm hlk d0 hd0
                    have hszb : sizeOf bv < sizeOf (JValue.obj bs) := sizeOf_lt_of_mem_obj hm
                    exact ih bv (by omega) gv (joinPath P k) (hb2 k bv hm)
                      (hg2 k gv (mem_of_lookup_eq_some hlk)) d0 hd0
                  · obtain ⟨kv, hkv, hsome⟩ := List.mem_filterMap.mp h
                    split at hsome
                    · cases hsome
                    · injection hsome with hde
                      subst hde
                      simp [pathOk, hg1 kv.1 kv.2 hkv]
                · exact absurd rfl (hne gs)
              · exact absurd rfl (hne bs)
          | arr ys => exact pathOk_default F R P _ _ d hd rfl
          | null => exact pathOk_default F R P _ _ d hd rfl
          | str s => exact pathOk_default F R P _ _ d hd rfl
          | num m => exact pathOk_default F R P _ _ d hd rfl
          | bool x => exact pathOk_default F R P _ _ d hd rfl
      | arr xs =>
          cases g with
          | arr ys => exact pathOk_arr F R P xs ys d hd rfl
          | obj gs => exact pathOk_default F R P _ _ d hd rfl
          | null => exact pathOk_default F R P _ _ d hd rfl
          | str s => exact pathOk_default F R P _ _ d hd rfl
          | num m => exact pathOk_default F R P _ _ d hd rfl
          | bool x => exact pathOk_default F R P _ _ d hd rfl
      | null => exact pathOk_default F R P _ _ d hd rfl
      | str s => exact pathOk_default F R P _ _ d hd rfl
      | num m => exact pathOk_default F R P _ _ d hd rfl
      | bool x => exact pathOk_default F R P _ _ d hd rfl

/-- Spec-side characterization of `shouldIgnoreField`: exact full-path or
single-segment membership in the field-name list, or a valid pattern
matching the full path or any single segment. -/
theorem shouldIgnoreField_iff (p : String) (F : List String) (R : List IgnorePattern) :
    shouldIgnoreField p F R = true ↔
      p ∈ F ∨ (∃ part ∈ splitOnDot p, part ∈ F) ∨
        ∃ re, IgnorePattern.valid re ∈ R ∧
          (reTest false re p = true ∨ ∃ part ∈ splitOnDot p, reTest false re part = true) := by
  simp only [shouldIgnoreField]
  by_cases h1 : F.contains p = true
  · rw [if_pos h1]
    exact iff_of_true rfl (Or.inl (List.elem_iff.mp h1))
  · rw [if_neg h1]
    by_cases h2 : (splitOnDot p).any (fun part => F.contains part) = true
    · rw [if_pos h2]
      rcases List.any_eq_true.mp h2 with ⟨part, hpart, hc⟩
      exact iff_of_true rfl (Or.inr (Or.inl ⟨part, hpart, List.elem_iff.mp hc⟩))
    · rw [if_neg h2]
      constructor
      · intro h
        rcases List.any_eq_true.mp h with ⟨pat, hp, hmatch⟩
        cases pat with
        | invalid => simp at hmatch
        | valid re =>
            refine Or.inr (Or.inr ⟨re, hp, ?_⟩)
            rw [Bool.or_eq_true] at hmatch
            rcases hmatch with hm | hm
            · exact Or.inl hm
            · rcases List.any_eq_true.mp hm with ⟨part, hpart, hr⟩
              exact Or.inr ⟨part, hpart, hr⟩
      · intro h
        rcases h with h | h | h
        · exact absurd (List.elem_iff.mpr h) h1
        · rcases h with ⟨part, hpart, hm⟩
          exact absurd (List.any_eq_true.mpr ⟨part, hpart, List.elem_iff.mpr hm⟩) h2
        · rcases h with ⟨re, hre, hm⟩
          refine List.any_eq_true.mpr ⟨IgnorePattern.valid re, hre, ?_⟩
          rw [Bool.or_eq_true]
          rcases hm with hm | ⟨part, hpart, hm⟩
          · exact Or.inl hm
          · exact Or.inr (List.any_eq_true.mpr ⟨part, hpart, hm⟩)

/-- C5 (amended): an object entry survives the exclusion filter iff its
full dot-path is not ignored *and its key is not `__proto__`* — the
source drops an own `__proto__` entry regardless of the rules, because
the copying assignment hits the inherited `Object.prototype.__proto__`
accessor and creates no own property, so the claimed removal-iff fails
at that key (see the counterexample).  A path is ignored exactly when
the full path or any single segment is in the exact field-name list or
matches a valid regex pattern against the path or a segment; in
particular a rule naming `level` excludes both a top-level `level` field
and the nested `log.level`; and every difference produced for the
filtered pair has all prefixes of its path non-ignored, so no
`DiffEntry` references an excluded path. -/
theorem c5_exclusion_filter (F : List String) (R : List IgnorePattern)
    (p : String) (kvs : List (String × JValue)) (P k : String) (w : JValue)
    (blue green : JValue) :
    (shouldIgnoreField p F R = true ↔
      p ∈ F ∨ (∃ part ∈ splitOnDot p, part ∈ F) ∨
        ∃ re, IgnorePattern.valid re ∈ R ∧
          (reTest false re p = true ∨ ∃ part ∈ splitOnDot p, reTest false re part = true)) ∧
    ((k, w) ∈ filterObjEntries F R kvs P ↔
      (shouldIgnoreField (joinPath P k) F R = false ∧ k ≠ "__proto__" ∧
        ∃ v, (k, v) ∈ kvs ∧ w = removeIgnoredFields F R v (joinPath P k))) ∧
    (shouldIgnoreField "level" ["level"] [] = true ∧
      shouldIgnoreField "log.level" ["level"] [] = true) ∧
    (∀ d ∈ diffValue (removeIgnoredFields F R blue "") (removeIgnoredFields F R green ""),
      pathOk F R "" d.path = true) := by
  refine ⟨shouldIgnoreField_iff p F R, mem_filterObjEntries F R k w kvs P,
    ⟨by decide, by decide⟩, ?_⟩
  intro d hd
  exact diff_path_ok F R (sizeOf (removeIgnoredFields F R blue "")) _ le_rfl _ ""
    (keysOk_removeIgnoredFields F R (sizeOf blue) blue le_rfl "")
    (keysOk_removeIgnoredFields F R (sizeOf green) green le_rfl "")
    d hd

/-- C5 counterexample: with no exclusion rules at all, a record's own
`__proto__` field is dropped by the filter — although
`shouldIgnoreField` does not ignore it — while its sibling field
survives, refuting the claimed removal-iff. -/
theorem c5_counterexample :
    shouldIgnoreField "__proto__" [] [] = false ∧
    removeIgnoredFields [] [] (.obj [("__proto__", .num 1), ("a", .num 2)]) "" =
      .obj [("a", .num 2)] :=
  ⟨rfl, rfl⟩

/-- An `any` whose predicate rejects invalid patterns is unchanged by
dropping them. -/
theorem any_filter_isValid (R : List IgnorePattern) (f : IgnorePattern → Bool)
    (hf : f .invalid = false) :
    (R.filter IgnorePattern.isValid).any f = R.any f := by
  induction R with
  | nil => rfl
  | cons pat rest ih =>
      cases pat with
      | invalid => simp [List.filter, IgnorePattern.isValid, hf, ih]
      | valid re => simp [List.filter, IgnorePattern.isValid, ih]

/-- `shouldIgnoreField` ignores invalid patterns: dropping them leaves
the result unchanged. -/
theorem shouldIgnoreField_filter_valid (p : String) (F : List String)
    (R : List IgnorePattern) :
    shouldIgnoreField p F (R.filter IgnorePattern.isValid) = shouldIgnoreField p F R := by
  simp only [shouldIgnoreField]
  by_cases h1 : F.contains p = true
  · rw [if_pos h1, if_pos h1]
  · rw [if_neg h1, if_neg h1]
    by_cases h2 : (splitOnDot p).any (fun part => F.contains part) = true
    · rw [if_pos h2, if_pos h2]
    · rw [if_neg h2, if_neg h2]
      exact any_filter_isValid R _ rfl

/-- `removeIgnoredFields` ignores invalid patterns. -/
theorem removeIgnoredFields_filter_valid (F : List String) (R : List IgnorePattern) :
    ∀ (n : Nat) (v : JValue), sizeOf v ≤ n → ∀ P,
      removeIgnoredFields F (R.filter IgnorePattern.isValid) v P =
        removeIgnoredFields F R v P := by
  intro n
  induction n with
  | zero =>
      intro v hv
      exact absurd hv (by have := one_le_sizeOf_jvalue v; omega)
  | succ n ih =>
      intro v hv P
      match v with
      | .obj kvs =>
          have hkvs : ∀ (l : List (String × JValue)),
              (∀ k w, (k, w) ∈ l → sizeOf w ≤ n) →
              filterObjEntries F (R.filter IgnorePattern.isValid) l P =
                filterObjEntries F R l P := by
            intro l
            induction l with
            | nil => intro _; rfl
            | cons kw rest ihl =>
                obtain ⟨k, w⟩ := kw
                intro hsz
                rw [filterObjEntries, filterObjEntries, shouldIgnoreField_filter_valid]
                by_cases hig : shouldIgnoreField (joinPath P k) F R = true
                · rw [if_pos hig, if_pos hig]
                  exact ihl (fun k w hm => hsz k w (List.mem_cons_of_mem _ hm))
                · rw [if_neg hig, if_neg hig]
                  by_cases hpr : k = "__proto__"
                  · rw [if_pos hpr, if_pos hpr]
                    exact ihl (fun k w hm => hsz k w (List.mem_cons_of_mem _ hm))
                  · rw [if_neg hpr, if_neg hpr,
                      ih w (hsz k w (List.mem_cons_self _ _)) (joinPath P k),
                      ihl (fun k w hm => hsz k w (List.mem_cons_of_mem _ hm))]
          rw [show removeIgnoredFields F (R.filter IgnorePattern.isValid) (.obj kvs) P =
              .obj (filterObjEntries F (R.filter IgnorePattern.isValid) kvs P) from rfl,
            show removeIgnoredFields F R (.obj kvs) P =
              .obj (filterObjEntries F R kvs P) from rfl,
            hkvs kvs (fun k w hm => by
              have := sizeOf_lt_of_mem_obj hm
              omega)]
      | .arr xs =>
          have hxs : ∀ (l : List JValue), (∀ x ∈ l, sizeOf x ≤ n) → ∀ (i : Nat),
              filterArrItems F (R.filter IgnorePattern.isValid) l P i =
                filterArrItems F R l P i := by
            intro l
            induction l with
            | nil => intro _ _; rfl
            | cons x rest ihl =>
                intro hsz i
                rw [filterArrItems, filterArrItems,
                  ih x (hsz x (List.mem_cons_self _ _)) _,
                  ihl (fun x hm => hsz x (List.mem_cons_of_mem _ hm)) (i + 1)]
          rw [show removeIgnoredFields F (R.filter IgnorePattern.isValid) (.arr xs) P =
              .arr (filterArrItems F (R.filter IgnorePattern.isValid) xs P 0) from rfl,
            show removeIgnoredFields F R (.arr xs) P =
              .arr (filterArrItems F R xs P 0) from rfl,
            hxs xs (fun x hm => by
              have h1 := List.sizeOf_lt_of_mem hm
              have h2 : sizeOf (JValue.arr xs) = 1 + sizeOf xs := by simp
              omega) 0]
      | .null => rfl
      | .str s => rfl
      | .num m => rfl
      | .bool x => rfl

/-- C6: an invalid (unparseable) pattern is silently skipped: the
field-exclusion test, the record filter, and a whole log-entry
comparison all compute exactly the result given by the remaining valid
rules; inserting an invalid pattern anywhere in the rule list changes
nothing. -/
theorem c6_invalid_pattern_skipped (p : String) (F : List String)
    (R R1 R2 : List IgnorePattern) (v blue green : JValue) (P : String) :
    shouldIgnoreField p F (R.filter IgnorePattern.isValid) = shouldIgnoreField p F R ∧
    shouldIgnoreField p F (R1 ++ IgnorePattern.invalid :: R2) =
      shouldIgnoreField p F (R1 ++ R2) ∧
    removeIgnoredFields F (R.filter IgnorePattern.isValid) v P =
      removeIgnoredFields F R v P ∧
    compareLogEntries blue green F (R.filter IgnorePattern.isValid) =
      compareLogEntries blue green F R := by
  have hins : shouldIgnoreField p F (R1 ++ IgnorePattern.invalid :: R2) =
      shouldIgnoreField p F (R1 ++ R2) := by
    have hfil : (R1 ++ IgnorePattern.invalid :: R2).filter IgnorePattern.isValid =
        (R1 ++ R2).filter IgnorePattern.isValid := by
      simp [List.filter_append, List.filter, IgnorePattern.isValid]
    rw [← shouldIgnoreField_filter_valid p F (R1 ++ IgnorePattern.invalid :: R2), hfil,
      shouldIgnoreField_filter_valid]
  refine ⟨shouldIgnoreField_filter_valid p F R, hins,
    removeIgnoredFields_filter_valid F R (sizeOf v) v le_rfl P, ?_⟩
  rw [compareLogEntries, compareLogEntries,
    removeIgnoredFields_filter_valid F R (sizeOf blue) blue le_rfl "",
    removeIgnoredFields_filter_valid F R (sizeOf green) green le_rfl ""]

/-- A lookup that succeeds on the left list succeeds unchanged on an
appended list. -/
theorem lookup_append_left {k : String} {e : KVEntry} :
    ∀ (m m2 : List (String × KVEntry)), m.lookup k = some e →
      (m ++ m2).lookup k = some e := by
  intro m m2
  induction m with
  | nil => intro h; simp [List.lookup] at h
  | cons kv rest ih =>
      obtain ⟨k0, v0⟩ := kv
      intro h
      rw [List.lookup] at h
      rw [List.cons_append, List.lookup]
      cases he : k == k0 with
      | true =>
          rw [he] at h
          exact h
      | false =>
          rw [he] at h
          exact ih h

/-- After replacing the entry stored under an existing key, looking the
key up yields the replacement. -/
theorem kvReplace_lookup_eq (key : String) (e : KVEntry) :
    ∀ (m : List (String × KVEntry)), (m.lookup key).isSome →
      (kvReplace m key e).lookup key = some e := by
  intro m
  induction m with
  | nil => intro h; simp [List.lookup] at h
  | cons kv rest ih =>
      obtain ⟨k0, v0⟩ := kv
      intro h
      rw [kvReplace]
      by_cases hk : k0 = key
      · rw [if_pos hk, List.lookup,
          show (key == k0) = true from beq_iff_eq.mpr hk.symm]
      · rw [List.lookup, show (key == k0) = false from
          beq_eq_false_iff_ne.mpr (fun hh => hk hh.symm)] at h
        rw [if_neg hk, List.lookup, show (key == k0) = false from
          beq_eq_false_iff_ne.mpr (fun hh => hk hh.symm)]
        exact ih h

/-- Replacing the entry of a different key leaves a lookup unchanged. -/
theorem kvReplace_lookup_ne (key : String) (e : KVEntry) {k : String} (hk : k ≠ key) :
    ∀ (m : List (String × KVEntry)),
      (kvReplace m key e).lookup k = m.lookup k := by
  intro m
  induction m with
  | nil => rfl
  | cons kv rest ih =>
      obtain ⟨k0, v0⟩ := kv
      rw [kvReplace]
      by_cases h0 : k0 = key
      · rw [if_pos h0, List.lookup, List.lookup]
        cases he : k == k0 with
        | true => exact absurd ((eq_of_beq he).trans h0) hk
        | false => rfl
      · rw [if_neg h0, List.lookup, List.lookup]
        cases he : k == k0 with
        | true => rfl
        | false => exact ih

/-- An entry of the replaced map carries a key already present in the
original map. -/
theorem mem_kvReplace_exists {k : String} {x : KVEntry} :
    ∀ (m : List (String × KVEntry)) (key : String) (e : KVEntry),
      (k, x) ∈ kvReplace m key e → ∃ y, (k, y) ∈ m := by
  intro m
  induction m with
  | nil => intro key e h; simp [kvReplace] at h
  | cons kv rest ih =>
      obtain ⟨k0, old⟩ := kv
      intro key e h
      rw [kvReplace] at h
      by_cases hk : k0 = key
      · rw [if_pos hk] at h
        rcases List.mem_cons.mp h with h | h
        · refine ⟨old, ?_⟩
          rw [show k = k0 from congrArg Prod.fst h]
          exact List.mem_cons_self _ _
        · exact ⟨x, List.mem_cons_of_mem _ h⟩
      · rw [if_neg hk] at h
        rcases List.mem_cons.mp h with h | h
        · refine ⟨x, ?_⟩
          rw [h]
          exact List.mem_cons_self _ _
        · obtain ⟨y, hy⟩ := ih key e h
          exact ⟨y, List.mem_cons_of_mem _ hy⟩

/-- One capture step only ever inserts keys passing the length/stopword
guard. -/
theorem kvStep_keys (m : List (String × KVEntry)) (rk rv : String)
    (hm : ∀ k x, (k, x) ∈ m → (k.length < 3 || kvStopwords.contains k) = false) :
    ∀ k x, (k, x) ∈ kvStep m rk rv →
      (k.length < 3 || kvStopwords.contains k) = false := by
  intro k x hx
  simp only [kvStep] at hx
  split at hx
  · exact hm k x hx
  · rename_i hskip
    split at hx
    · rcases List.mem_append.mp hx with h | h
      · exact hm k x h
      · simp at h
        obtain ⟨hk, -⟩ := h
        rw [hk]
        exact Bool.eq_false_iff.mpr hskip
    · split at hx
      · obtain ⟨y, hy⟩ := mem_kvReplace_exists m _ _ hx
        exact hm k y hy
      · obtain ⟨y, hy⟩ := mem_kvReplace_exists m _ _ hx
        exact hm k y hy

/-- Every key of the key/value map passes the length/stopword guard. -/
theorem extract_keys_good_aux (captures : List (String × String)) :
    ∀ (m : List (String × KVEntry)),
      (∀ k x, (k, x) ∈ m → (k.length < 3 || kvStopwords.contains k) = false) →
      ∀ k x, (k, x) ∈ captures.foldl (fun m kv => kvStep m kv.1 kv.2) m →
        (k.length < 3 || kvStopwords.contains k) = false := by
  induction captures with
  | nil => intro m hm k x hx; exact hm k x hx
  | cons kv rest ih =>
      intro m hm k x hx
      exact ih (kvStep m kv.1 kv.2) (kvStep_keys m kv.1 kv.2 hm) k x hx

/-- One capture step never degrades a valid stored entry: value and
validity are kept, only the count may grow. -/
theorem kvStep_preserves_valid (m : List (String × KVEntry)) (rk rv k : String)
    (e : KVEntry) (hl : m.lookup k = some e) (hv : e.isInvalid = false) :
    ∃ c, (kvStep m rk rv).lookup k =
        some { value := e.value, isInvalid := false, count := c } ∧ e.count ≤ c := by
  obtain ⟨val, inv, cnt⟩ := e
  have hv2 : inv = false := hv
  subst hv2
  by_cases hskip : ((jsToLower (jsTrim rk)).length < 3 ||
      kvStopwords.contains (jsToLower (jsTrim rk))) = true
  · refine ⟨cnt, ?_, le_rfl⟩
    simp only [kvStep]
    rw [if_pos hskip]
    exact hl
  · cases hml : m.lookup (jsToLower (jsTrim rk)) with
    | none =>
        refine ⟨cnt, ?_, le_rfl⟩
        simp only [kvStep, hml]
        rw [if_neg hskip]
        exact lookup_append_left m _ hl
    | some ex =>
        by_cases hkk : jsToLower (jsTrim rk) = k
        · have hex : ex = ⟨val, false, cnt⟩ := by
            rw [hkk, hl] at hml
            exact (Option.some.inj hml).symm
          subst hex
          refine ⟨cnt + 1, ?_, Nat.le_succ cnt⟩
          simp only [kvStep, hml, Bool.false_and]
          rw [if_neg hskip, if_neg (by simp)]
          rw [← hkk] at hl ⊢
          exact kvReplace_lookup_eq _ _ m (by rw [hl]; rfl)
        · refine ⟨cnt, ?_, le_rfl⟩
          simp only [kvStep, hml]
          rw [if_neg hskip]
          split
          · rw [kvReplace_lookup_ne _ _ (fun hh => hkk hh.symm)]
            exact hl
          · rw [kvReplace_lookup_ne _ _ (fun hh => hkk hh.symm)]
            exact hl

/-- Once stored valid, an entry survives any further capture stream;
only its count can grow. -/
theorem extract_valid_preserved (rest : List (String × String)) :
    ∀ (m : List (String × KVEntry)) (k : String) (e : KVEntry),
      m.lookup k = some e → e.isInvalid = false →
      ∃ c, ((rest.foldl (fun m kv => kvStep m kv.1 kv.2) m).lookup k) =
          some { value := e.value, isInvalid := false, count := c } ∧ e.count ≤ c := by
  induction rest with
  | nil =>
      intro m k e hl hv
      obtain ⟨val, inv, cnt⟩ := e
      have hv2 : inv = false := hv
      subst hv2
      exact ⟨cnt, hl, le_rfl⟩
  | cons kv rest ih =>
      intro m k e hl hv
      obtain ⟨c1, hc1, hle1⟩ := kvStep_preserves_valid m kv.1 kv.2 k e hl hv
      obtain ⟨c2, hc2, hle2⟩ := ih (kvStep m kv.1 kv.2) k _ hc1 rfl
      exact ⟨c2, hc2, le_trans hle1 hle2⟩

/-- A later valid capture for a key whose stored value is invalid
overwrites it: the new trimmed value is stored valid, the count is
bumped. -/
theorem kvStep_overwrites_invalid (m : List (String × KVEntry)) (rk rv : String)
    (e : KVEntry)
    (hskip : ¬(((jsToLower (jsTrim rk)).length < 3 ||
        kvStopwords.contains (jsToLower (jsTrim rk))) = true))
    (hl : m.lookup (jsToLower (jsTrim rk)) = some e)
    (hinv : e.isInvalid = true)
    (hval : isNullOrErrorValue (jsTrim rv) = false) :
    (kvStep m rk rv).lookup (jsToLower (jsTrim rk)) =
      some { value := jsTrim rv, isInvalid := false, count := e.count + 1 } := by
  obtain ⟨val, inv, cnt⟩ := e
  have hv2 : inv = true := hinv
  subst hv2
  simp only [kvStep, hl, hval, Bool.not_false, Bool.and_true, Bool.true_and]
  rw [if_neg hskip, if_pos trivial]
  exact kvReplace_lookup_eq _ _ m (by rw [hl]; rfl)

/-- C8: in the key/value map built by `extractKeyValuePairs` over a
capture stream, every stored key has length at least 3 and is no
stopword; a validly stored value is never overwritten by any later
capture (only its count grows); and an invalid stored value is
overwritten by a later valid capture for the same key, which stores the
new trimmed value as valid and bumps the count. -/
theorem c8_kv_map_invariant :
    (∀ (captures : List (String × String)) (k : String) (x : KVEntry),
        (k, x) ∈ extractKeyValuePairs captures →
          3 ≤ k.length ∧ k ∉ kvStopwords) ∧
    (∀ (pre rest : List (String × String)) (k : String) (e : KVEntry),
        (extractKeyValuePairs pre).lookup k = some e → e.isInvalid = false →
        ∃ c, (extractKeyValuePairs (pre ++ rest)).lookup k =
            some { value := e.value, isInvalid := false, count := c } ∧ e.count ≤ c) ∧
    (∀ (pre : List (String × String)) (rk rv : String) (e : KVEntry),
        ((jsToLower (jsTrim rk)).length < 3 ||
            kvStopwords.contains (jsToLower (jsTrim rk))) = false →
        (extractKeyValuePairs pre).lookup (jsToLower (jsTrim rk)) = some e →
        e.isInvalid = true → isNullOrErrorValue (jsTrim rv) = false →
        (extractKeyValuePairs (pre ++ [(rk, rv)])).lookup (jsToLower (jsTrim rk)) =
          some { value := jsTrim rv, isInvalid := false, count := e.count + 1 }) := by
  refine ⟨?_, ?_, ?_⟩
  · intro captures k x hx
    have h := extract_keys_good_aux captures []
      (by intro k x hx; simp at hx) k x hx
    rw [Bool.or_eq_false_iff] at h
    obtain ⟨h1, h2⟩ := h
    constructor
    · have h3 := of_decide_eq_false h1
      omega
    · intro hmem
      have h4 : kvStopwords.contains k = true := List.elem_iff.mpr hmem
      rw [h2] at h4
      exact Bool.noConfusion h4
  · intro pre rest k e hl hv
    rw [extractKeyValuePairs, List.foldl_append]
    exact extract_valid_preserved rest _ k e hl hv
  · intro pre rk rv e hskip hl hinv hval
    rw [extractKeyValuePairs, List.foldl_append]
    exact kvStep_overwrites_invalid _ rk rv e (Bool.eq_false_iff.mp hskip) hl hinv hval
